import Mathlib

/-!
Shallow embedding of the NL2VIS chart-recommendation core:
the ML chart recommender (extractFeatures, recommendCharts, generateChart),
the type inferencers (detectColumnTypes of pdf-extractor.ts and the
type-inference pass of convertJsonToParsedData), the identifier/placeholder
column heuristics, and the correlation part of extractMetrics
(metrics-extractor.ts).

JavaScript numbers are modelled as rationals (exact where the source uses
small integral data); NaN is modelled as the missing case of Option.
JavaScript undefined is Option.none at lookup sites; JS null is a proper
value constructor.  Date parsing (new Date(...)) is kept as an explicit
function parameter, since none of the verified properties depend on it.
-/

namespace NL2VIS

attribute [local semireducible] Rat.add Rat.sub Rat.mul Rat.inv Rat.ofScientific

/-! String primitives, defined by structural recursion over the character
list so that concrete instances evaluate. -/

/-- Lowercase every character. -/
def strLower (s : String) : String :=
  String.mk (s.data.map Char.toLower)

/-- Whether the first list is an initial segment of the second. -/
def charListBegins : List Char → List Char → Bool
  | [], _ => true
  | _ :: _, [] => false
  | c :: cs, d :: ds => c = d ∧ charListBegins cs ds

/-- Whether the pattern occurs as a contiguous sublist. -/
def charListHas (pat : List Char) : List Char → Bool
  | [] => pat.isEmpty
  | c :: cs => charListBegins pat (c :: cs) ∨ charListHas pat cs

/-- s.startsWith pre. -/
def strBegins (s pre : String) : Bool :=
  charListBegins pre.data s.data

/-- s.endsWith suf. -/
def strEnds (s suf : String) : Bool :=
  charListBegins suf.data.reverse s.data.reverse

/-- s.trim: strip leading and trailing whitespace. -/
def strTrim (s : String) : String :=
  String.mk (((s.data.dropWhile Char.isWhitespace).reverse.dropWhile
    Char.isWhitespace).reverse)

/-- A runtime cell value: null | number | string | boolean.  JS undefined is
represented by Option.none on lookups. -/
inductive JsValue where
  | nullV : JsValue
  | numV (q : ℚ) : JsValue
  | strV (s : String) : JsValue
  | boolV (b : Bool) : JsValue
deriving DecidableEq

/-- A row is the insertion-ordered field list of a JS record. -/
abbrev Row := List (String × JsValue)

/-- Inferred column type. -/
inductive ColumnType where
  | number | string | date | boolean
deriving DecidableEq

/-- ParsedData of shared/schema.ts. -/
structure ParsedData where
  columns : List String
  rows : List Row
  columnTypes : List (String × ColumnType)
deriving DecidableEq

/-- ChartType of ml-chart-recommender.ts. -/
inductive ChartType where
  | bar | line | pie | scatter | area
deriving DecidableEq

/-- The string name of a chart type, as used in the id template literal. -/
def chartTypeName : ChartType → String
  | .bar => "bar"
  | .line => "line"
  | .pie => "pie"
  | .scatter => "scatter"
  | .area => "area"

/-- ChartRecommendation of ml-chart-recommender.ts. -/
structure ChartRecommendation where
  chartType : ChartType
  confidence : ℚ
  xAxis : Option String := none
  yAxis : Option String := none
  dataKey : Option String := none
  title : String
  reasoning : String
deriving DecidableEq

/-- ChartConfig of shared/schema.ts (colors field unused by the core). -/
structure ChartConfig where
  id : String
  type : ChartType
  title : String
  xAxis : Option String := none
  yAxis : Option String := none
  dataKey : Option String := none
  data : List Row
deriving DecidableEq

/-- Property lookup on a JS record: first field with the given key;
none models undefined. -/
def rowLookup (r : Row) (k : String) : Option JsValue :=
  (r.find? (fun p => p.1 == k)).map (fun p => p.2)

/-- columnTypes[col]. -/
def typeLookup (pd : ParsedData) (c : String) : Option ColumnType :=
  (pd.columnTypes.find? (fun p => p.1 == c)).map (fun p => p.2)

/-- Numeric value of a digit list (most significant first). -/
def digitsToNat (cs : List Char) : Nat :=
  cs.foldl (fun n c => n * 10 + (c.toNat - 48)) 0

/-- Parse an unsigned decimal mantissa "123", "1.5", "1.", ".5".
Returns none when the shape is not a JS decimal literal. -/
def parseMantissa (cs : List Char) : Option ℚ :=
  let intPart := cs.takeWhile (fun c => c.isDigit)
  let rest := cs.dropWhile (fun c => c.isDigit)
  match rest with
  | [] => if intPart.isEmpty then none else some (digitsToNat intPart : ℚ)
  | '.' :: fracPart =>
    if fracPart.all (fun c => c.isDigit) then
      if intPart.isEmpty ∧ fracPart.isEmpty then none
      else some ((digitsToNat (intPart ++ fracPart) : ℚ) / (10 : ℚ) ^ fracPart.length)
    else none
  | _ => none

/-- Parse the optional exponent suffix after the mantissa. -/
def parseExponent (cs : List Char) : Option ℤ :=
  match cs with
  | [] => some 0
  | 'e' :: rest => parseSignedExp rest
  | 'E' :: rest => parseSignedExp rest
  | _ => none
where
  parseSignedExp : List Char → Option ℤ
    | '+' :: ds => if ds ≠ [] ∧ ds.all (fun c => c.isDigit) then some (digitsToNat ds : ℤ) else none
    | '-' :: ds => if ds ≠ [] ∧ ds.all (fun c => c.isDigit) then some (-(digitsToNat ds : ℤ)) else none
    | ds => if ds ≠ [] ∧ ds.all (fun c => c.isDigit) then some (digitsToNat ds : ℤ) else none

/-- Scale a rational by a signed power of ten. -/
def scalePow10 (m : ℚ) (e : ℤ) : ℚ :=
  if 0 ≤ e then m * (10 : ℚ) ^ e.toNat else m / (10 : ℚ) ^ (-e).toNat

/-- Parse an unsigned JS numeric literal (decimal with optional exponent). -/
def parseUnsignedNumber (cs : List Char) : Option ℚ :=
  let mantLen := (cs.takeWhile (fun c => c.isDigit)).length +
    (match cs.dropWhile (fun c => c.isDigit) with
     | '.' :: frac => 1 + (frac.takeWhile (fun c => c.isDigit)).length
     | _ => 0)
  match parseMantissa (cs.take mantLen), parseExponent (cs.drop mantLen) with
  | some m, some e => some (scalePow10 m e)
  | _, _ => none

/-- JS Number(string) for the decimal fragment: trims whitespace, the empty
string converts to 0, otherwise an optionally signed decimal literal.
Returns none for NaN.  (Hex/binary/octal literals and the Infinity
spellings are not modelled; no verified property exercises them.) -/
def jsStrToNumber (s : String) : Option ℚ :=
  let t := strTrim s
  if t = "" then some 0
  else match t.data with
    | '-' :: rest => (parseUnsignedNumber rest).map (fun q => -q)
    | '+' :: rest => parseUnsignedNumber rest
    | cs => parseUnsignedNumber cs

/-- JS Number(value) on a defined value; none models NaN. -/
def jsNumber : JsValue → Option ℚ
  | .nullV => some 0
  | .numV q => some q
  | .boolV b => some (if b then 1 else 0)
  | .strV s => jsStrToNumber s

/-- JS Number(value) where the value may be undefined (Number(undefined) is NaN). -/
def jsNumberU : Option JsValue → Option ℚ
  | none => none
  | some v => jsNumber v

/-- Decimal rendering of a rational with denominator 1.  JS float formatting
of non-integral numbers is not modelled (no verified property prints one). -/
def jsNumToString (q : ℚ) : String :=
  if q.den = 1 then toString q.num
  else toString q.num ++ "/" ++ toString q.den

/-- JS String(value) on a defined value. -/
def jsToString : JsValue → String
  | .nullV => "null"
  | .numV q => jsNumToString q
  | .strV s => s
  | .boolV b => if b then "true" else "false"

/-- JS truthiness of a defined value (NaN never occurs as a stored value). -/
def jsTruthy : JsValue → Bool
  | .nullV => false
  | .numV q => q ≠ 0
  | .strV s => s ≠ ""
  | .boolV b => b

/-- String(row[col] || ''): empty string for a falsy or undefined value. -/
def jsStrOrEmpty : Option JsValue → String
  | none => ""
  | some v => if jsTruthy v then jsToString v else ""

/-- String(row[col] || 'Unknown').trim(). -/
def jsStrOrUnknown : Option JsValue → String
  | none => "Unknown"
  | some v => if jsTruthy v then strTrim (jsToString v) else "Unknown"

/-- Whether a JS string-or-undefined is falsy (undefined or the empty string). -/
def jsFalsyS : Option String → Bool
  | none => true
  | some s => s = ""

/-- The JS || operator restricted to string-or-undefined operands. -/
def jsOrS (a b : Option String) : Option String :=
  if jsFalsyS a then b else a

/-- Case-insensitive substring test for one pattern. -/
def strContains (s pat : String) : Bool :=
  charListHas pat.data (strLower s).data

/-- Test whether any of the (lowercase) words occurs in the string,
modelling an /a|b|c/i regex test. -/
def matchesAnyWord (words : List String) (s : String) : Bool :=
  words.any (fun w => strContains s w)

/-! ### Type inference (pdf-extractor.ts) -/

/-- Sampled values of a column in detectColumnTypes: first 100 rows,
dropping undefined, null and the empty string. -/
def sampleVals (rows : List Row) (c : String) : List JsValue :=
  (rows.take 100).filterMap (fun r =>
    match rowLookup r c with
    | none => none
    | some v => if v = .nullV ∨ v = .strV "" then none else some v)

/-- allNumbers predicate of detectColumnTypes:
typeof val is number, or Number(val) is not NaN. -/
def detectIsNumberLike (v : JsValue) : Bool :=
  match v with
  | .numV _ => true
  | _ => (jsNumber v).isSome

/-- allBooleans predicate of detectColumnTypes (and of
convertJsonToParsedData): a boolean literal or the exact strings
"true" / "false". -/
def isBoolLike (v : JsValue) : Bool :=
  match v with
  | .boolV _ => true
  | .strV s => s = "true" ∨ s = "false"
  | _ => false

/-- Per-column classifier of detectColumnTypes.  Precedence as written in
the source: number, then boolean, then date, then string.  The
new-Date(val) validity test is the dateOk parameter. -/
def classifySamples (dateOk : JsValue → Bool) (samples : List JsValue) : ColumnType :=
  if samples.isEmpty then .string
  else if samples.all detectIsNumberLike then .number
  else if samples.all isBoolLike then .boolean
  else if samples.all dateOk then .date
  else .string

/-- detectColumnTypes of pdf-extractor.ts. -/
def detectColumnTypes (dateOk : JsValue → Bool) (rows : List Row)
    (columns : List String) : List (String × ColumnType) :=
  columns.map (fun c => (c, classifySamples dateOk (sampleVals rows c)))

/-- Sampled values of a column in the type-inference pass of
convertJsonToParsedData: first min(100, rows) rows, dropping undefined
and null (the empty string is kept there). -/
def sampleValsCleaned (rows : List Row) (c : String) : List JsValue :=
  (rows.take 100).filterMap (fun r =>
    match rowLookup r c with
    | none => none
    | some v => if v = .nullV then none else some v)

/-- allNumbers predicate of convertJsonToParsedData: a primitive number, or
a string that parses to a number and is not whitespace-only. -/
def cleanedIsNumberLike (v : JsValue) : Bool :=
  match v with
  | .numV _ => true
  | .strV s => (jsStrToNumber s).isSome ∧ s.trim ≠ ""
  | _ => false

/-- Per-column classifier of the convertJsonToParsedData inference pass.
Precedence as written there: boolean, then number, then date, then
string; the date rule also requires string length above 5. -/
def classifyCleaned (dateOk : String → Bool) (samples : List JsValue) : ColumnType :=
  if samples.isEmpty then .string
  else if samples.all isBoolLike then .boolean
  else if samples.all cleanedIsNumberLike then .number
  else if samples.all (fun v =>
      match v with
      | .strV s => dateOk s ∧ 5 < s.length
      | _ => false) then .date
  else .string

/-- The type-inference pass of convertJsonToParsedData (on already cleaned
rows and column names). -/
def inferCleanedTypes (dateOk : String → Bool) (rows : List Row)
    (columns : List String) : List (String × ColumnType) :=
  columns.map (fun c => (c, classifyCleaned dateOk (sampleValsCleaned rows c)))

/-! ### Column semantics heuristics (ml-chart-recommender.ts) -/

/-- IDENTIFIER_PATTERNS: sl_no (underscore optional), id, suffix _id,
serial_no as a case-insensitive name fragment set. -/
def isIdentifierColumn (name : String) : Bool :=
  let l := strLower name
  l = "sl_no" ∨ l = "slno" ∨ l = "id" ∨ strEnds l "_id" ∨
    strBegins l "serial_no" ∨ strBegins l "serialno" ∨ l = "index"

/-- Case-insensitive test of an anchored name-then-digits pattern, as in
the empty-digits and column-digits placeholder regexes. -/
def namedDigitsPat (stem : String) (name : String) : Bool :=
  let l := (strLower name).data
  charListBegins stem.data l ∧ (l.drop stem.data.length) ≠ [] ∧
    (l.drop stem.data.length).all (fun c => c.isDigit)

/-- A placeholder-named column: it matches empty-digits or column-digits. -/
def isPlaceholderName (name : String) : Bool :=
  namedDigitsPat "empty" name ∨ namedDigitsPat "column" name

/-- The negated placeholder test used in the fallback chains. -/
def notPlaceholder (name : String) : Bool :=
  ¬ namedDigitsPat "empty" name ∧ ¬ namedDigitsPat "column" name

/-! ### Column pools -/

def numericColsOf (pd : ParsedData) : List String :=
  pd.columns.filter (fun c => typeLookup pd c = some .number)

def stringColsOf (pd : ParsedData) : List String :=
  pd.columns.filter (fun c => typeLookup pd c = some .string)

def dateColsOf (pd : ParsedData) : List String :=
  pd.columns.filter (fun c => typeLookup pd c = some .date)

def boolColsOf (pd : ParsedData) : List String :=
  pd.columns.filter (fun c => typeLookup pd c = some .boolean)

/-- The non-identifier string columns (goodStringColumns of the source). -/
def goodStringColsOf (pd : ParsedData) : List String :=
  (stringColsOf pd).filter (fun c => ¬ isIdentifierColumn c)

/-- The non-identifier numeric columns (goodNumericColumns of the source). -/
def goodNumericColsOf (pd : ParsedData) : List String :=
  (numericColsOf pd).filter (fun c => ¬ isIdentifierColumn c)

/-- new Set(rows.map(row => String(row[col] || ''))).size. -/
def uniqueCountStr (rows : List Row) (c : String) : Nat :=
  ((rows.map (fun r => jsStrOrEmpty (rowLookup r c))).dedup).length

/-! ### Feature extraction (extractFeatures of ml-chart-recommender.ts) -/

/-- DataFeatures of ml-chart-recommender.ts. -/
structure DataFeatures where
  numNumericColumns : Nat
  numStringColumns : Nat
  numDateColumns : Nat
  numBooleanColumns : Nat
  totalColumns : Nat
  totalRows : Nat
  hasTimeSeries : Bool
  hasCategoricalData : Bool
  hasMultipleMetrics : Bool
  dataCompleteness : ℚ
  uniqueValueRatio : ℚ
  valueRange : ℚ
  valueVariance : ℚ
  hasDateKeywords : Bool
  hasTimeKeywords : Bool
  hasCategoryKeywords : Bool
  hasMetricKeywords : Bool
deriving DecidableEq

/-- The date-and-time word list of the hasTimeSeries regex. -/
def timeSeriesWords : List String :=
  ["date", "time", "year", "month", "day", "week", "quarter"]

/-- Numeric samples of a column: rows.map(Number(row[col])).filter(not NaN).
Note Number(null) is 0, so nulls contribute zeros, as in the source. -/
def numericVals (rows : List Row) (c : String) : List ℚ :=
  rows.filterMap (fun r => jsNumberU (rowLookup r c))

/-- Population mean of a value list (0 for the empty list, which the
source never averages). -/
def meanQ (vs : List ℚ) : ℚ := vs.sum / (vs.length : ℚ)

/-- Population variance of a value list. -/
def varianceQ (vs : List ℚ) : ℚ :=
  (vs.map (fun v => (v - meanQ vs) ^ 2)).sum / (vs.length : ℚ)

/-- max - min of a nonempty value list via folds. -/
def rangeQ (vs : List ℚ) : ℚ :=
  (vs.foldl max (vs.headD 0)) - (vs.foldl min (vs.headD 0))

/-- A cell is filled iff it is not undefined, null or the empty string. -/
def cellFilled (o : Option JsValue) : Bool :=
  match o with
  | none => false
  | some v => v ≠ .nullV ∧ v ≠ .strV ""

/-- extractFeatures of ml-chart-recommender.ts. -/
def extractFeatures (pd : ParsedData) : DataFeatures :=
  let numericColumns := numericColsOf pd
  let stringColumns := stringColsOf pd
  let dateColumns := dateColsOf pd
  let booleanColumns := boolColsOf pd
  let nRows := pd.rows.length
  let uniqueRatios := pd.columns.map (fun c =>
    (uniqueCountStr pd.rows c : ℚ) / (max nRows 1 : ℚ))
  let avgUniqueRatio := uniqueRatios.sum / (uniqueRatios.length : ℚ)
  let nonEmptyNumeric := (numericColumns.map (fun c => numericVals pd.rows c)).filter
    (fun vs => ¬ vs.isEmpty)
  let ranges := nonEmptyNumeric.map rangeQ
  let variances := nonEmptyNumeric.map varianceQ
  let valueRange := if numericColumns.isEmpty then 0
    else if ranges.isEmpty then 0 else meanQ ranges
  let valueVariance := if numericColumns.isEmpty then 0
    else if variances.isEmpty then 0 else meanQ variances
  let hasTimeSeries := ¬ dateColumns.isEmpty ∨
    pd.columns.any (fun c => matchesAnyWord timeSeriesWords c)
  let hasCategoricalData := ¬ stringColumns.isEmpty ∧
    stringColumns.any (fun c => (uniqueCountStr pd.rows c : ℚ) < (nRows : ℚ) * 0.5)
  let totalCells := nRows * pd.columns.length
  let filledCells := (pd.rows.map (fun r =>
    (pd.columns.filter (fun c => cellFilled (rowLookup r c))).length)).sum
  let dataCompleteness := if 0 < totalCells then (filledCells : ℚ) / (totalCells : ℚ) else 1
  let lowerNames := pd.columns.map (fun c => strLower c)
  { numNumericColumns := numericColumns.length
    numStringColumns := stringColumns.length
    numDateColumns := dateColumns.length
    numBooleanColumns := booleanColumns.length
    totalColumns := pd.columns.length
    totalRows := nRows
    hasTimeSeries := hasTimeSeries
    hasCategoricalData := hasCategoricalData
    hasMultipleMetrics := 1 < numericColumns.length
    dataCompleteness := dataCompleteness
    uniqueValueRatio := avgUniqueRatio
    valueRange := valueRange
    valueVariance := valueVariance
    hasDateKeywords := lowerNames.any (matchesAnyWord
      ["date", "time", "year", "month", "day", "week", "quarter", "period"])
    hasTimeKeywords := lowerNames.any (matchesAnyWord
      ["time", "hour", "minute", "second", "timestamp"])
    hasCategoryKeywords := lowerNames.any (matchesAnyWord
      ["category", "type", "class", "group", "status", "label", "name"])
    hasMetricKeywords := lowerNames.any (matchesAnyWord
      ["value", "amount", "price", "cost", "revenue", "sales", "count",
       "total", "sum", "avg", "average", "metric", "score", "rating"]) }

/-! ### Stable sorting, modelling Array.prototype.sort with a comparator
(stable per the ECMAScript specification). -/

/-- Insert x in front of the first element y with le x y; elements are
inserted from the front of the original list, so equal keys keep their
original relative order. -/
def insertLe (le : α → α → Bool) (x : α) : List α → List α
  | [] => [x]
  | y :: ys => if le x y then x :: y :: ys else y :: insertLe le x ys

/-- Stable sort by the boolean relation le (le a b: a may come before b). -/
def sortByLe (le : α → α → Bool) : List α → List α
  | [] => []
  | x :: xs => insertLe le x (sortByLe le xs)

/-- The comparator (a, b) => b.confidence - a.confidence: a stays before b
iff b.confidence ≤ a.confidence. -/
def confDescLe (a b : ChartRecommendation) : Bool :=
  b.confidence ≤ a.confidence

/-! ### recommendCharts (ml-chart-recommender.ts) -/

/-- Bar-rule category predicate: 2 to 20 unique values covering less than
70 percent of the rows. -/
def barCatPred (pd : ParsedData) (c : String) : Bool :=
  let u := uniqueCountStr pd.rows c
  2 ≤ u ∧ u ≤ 20 ∧ (u : ℚ) < (pd.rows.length : ℚ) * 0.7

/-- The bar-rule category fallback chain. -/
def barCategoryCol (pd : ParsedData) : Option String :=
  jsOrS (jsOrS (jsOrS
    ((goodStringColsOf pd).find? (fun c => barCatPred pd c))
    ((goodStringColsOf pd).find? (fun c => 1 < uniqueCountStr pd.rows c)))
    ((stringColsOf pd).find? (fun c => barCatPred pd c)))
    (stringColsOf pd).head?

/-- The bar-rule value fallback chain. -/
def barValueCol (pd : ParsedData) : Option String :=
  jsOrS (jsOrS
    ((goodNumericColsOf pd).find? (fun c => notPlaceholder c))
    ((numericColsOf pd).find? (fun c => notPlaceholder c)))
    (numericColsOf pd).head?

/-- Recommendation 1: bar chart (confidence 0.95). -/
def barCands (pd : ParsedData) (features : DataFeatures) : List ChartRecommendation :=
  if features.hasCategoricalData ∧ 0 < features.numNumericColumns then
    match barCategoryCol pd, barValueCol pd with
    | some c, some v =>
      if c ≠ "" ∧ v ≠ "" ∧ ¬ isIdentifierColumn c ∧ ¬ isIdentifierColumn v ∧
          notPlaceholder c then
        [{ chartType := .bar
           confidence := 0.95
           xAxis := some c
           yAxis := some v
           title := v ++ " by " ++ c
           reasoning := "Categorical data with numeric metrics - ideal for bar charts showing comparisons" }]
      else []
    | _, _ => []
  else []

/-- The line-rule time-column fallback chain. -/
def lineTimeCol (pd : ParsedData) : Option String :=
  jsOrS (jsOrS (jsOrS
    (dateColsOf pd).head?
    (pd.columns.find? (fun c =>
      matchesAnyWord timeSeriesWords c ∧ ¬ isIdentifierColumn c)))
    (goodNumericColsOf pd).head?)
    (numericColsOf pd).head?

/-- The line-rule value-column fallback chain, avoiding the time column. -/
def lineValueCol (pd : ParsedData) (timeCol : Option String) : Option String :=
  jsOrS (jsOrS
    ((goodNumericColsOf pd).find? (fun c => some c ≠ timeCol))
    ((numericColsOf pd).find? (fun c => some c ≠ timeCol ∧ ¬ isIdentifierColumn c)))
    (numericColsOf pd).head?

/-- Recommendation 2: line chart (time series 0.95, else 0.75 / 0.65). -/
def lineCands (pd : ParsedData) (features : DataFeatures) : List ChartRecommendation :=
  if features.hasTimeSeries ∧ 0 < features.numNumericColumns then
    match lineTimeCol pd, lineValueCol pd (lineTimeCol pd) with
    | some t, some v =>
      if t ≠ "" ∧ v ≠ "" ∧ ¬ isIdentifierColumn v then
        [{ chartType := .line
           confidence := 0.95
           xAxis := some t
           yAxis := some v
           title := v ++ " over Time"
           reasoning := "Time series data detected - line chart shows trends over time" }]
      else []
    | _, _ => []
  else if 2 ≤ features.numNumericColumns ∧ 10 < features.totalRows then
    match goodNumericColsOf pd with
    | a :: b :: _ =>
      [{ chartType := .line
         confidence := 0.75
         xAxis := some a
         yAxis := some b
         title := b ++ " vs " ++ a
         reasoning := "Multiple numeric columns with sufficient data points for trend analysis" }]
    | _ =>
      match numericColsOf pd with
      | a :: b :: _ =>
        [{ chartType := .line
           confidence := 0.65
           xAxis := some a
           yAxis := some b
           title := b ++ " vs " ++ a
           reasoning := "Multiple numeric columns with sufficient data points for trend analysis" }]
      | _ => []
  else []

/-- The pie-rule category fallback chain. -/
def pieCategoryCol (pd : ParsedData) : Option String :=
  jsOrS (jsOrS
    ((goodStringColsOf pd).find? (fun c =>
      2 ≤ uniqueCountStr pd.rows c ∧ uniqueCountStr pd.rows c ≤ 10))
    ((stringColsOf pd).find? (fun c =>
      2 ≤ uniqueCountStr pd.rows c ∧ uniqueCountStr pd.rows c ≤ 10 ∧
        ¬ isIdentifierColumn c)))
    (stringColsOf pd).head?

/-- Recommendation 3: pie chart (confidence 0.65, only with no numeric
columns at all). -/
def pieCands (pd : ParsedData) (features : DataFeatures) : List ChartRecommendation :=
  if features.hasCategoricalData ∧ ¬ (stringColsOf pd).isEmpty ∧
      (numericColsOf pd).length = 0 then
    match pieCategoryCol pd with
    | some c =>
      if c ≠ "" ∧ ¬ isIdentifierColumn c then
        if 2 ≤ uniqueCountStr pd.rows c ∧ uniqueCountStr pd.rows c ≤ 10 ∧
            (numericColsOf pd).length = 0 then
          [{ chartType := .pie
             confidence := 0.65
             dataKey := some "value"
             title := "Distribution of " ++ c
             reasoning := "Categorical distribution with " ++
               toString (uniqueCountStr pd.rows c) ++
               " categories - suitable for pie chart" }]
        else []
      else []
    | none => []
  else []

/-- Recommendation 4: scatter plot (confidence 0.8 / 0.6). -/
def scatterCands (pd : ParsedData) (features : DataFeatures) : List ChartRecommendation :=
  if 2 ≤ features.numNumericColumns ∧ 20 ≤ features.totalRows then
    match goodNumericColsOf pd with
    | a :: b :: _ =>
      [{ chartType := .scatter
         confidence := 0.8
         xAxis := some a
         yAxis := some b
         title := a ++ " vs " ++ b
         reasoning := "Two numeric variables with sufficient data points - ideal for correlation analysis" }]
    | _ =>
      match numericColsOf pd with
      | a :: b :: _ =>
        [{ chartType := .scatter
           confidence := 0.6
           xAxis := some a
           yAxis := some b
           title := a ++ " vs " ++ b
           reasoning := "Two numeric variables with sufficient data points - ideal for correlation analysis" }]
      | _ => []
  else []

/-- The shorter word list of the area-rule time-column regex. -/
def areaTimeWords : List String := ["date", "time", "year", "month", "day"]

/-- The area-rule time-column chain (no numeric fallbacks). -/
def areaTimeCol (pd : ParsedData) : Option String :=
  jsOrS
    (dateColsOf pd).head?
    (pd.columns.find? (fun c =>
      matchesAnyWord areaTimeWords c ∧ ¬ isIdentifierColumn c))

/-- The area-rule value-column chain. -/
def areaValueCol (pd : ParsedData) : Option String :=
  jsOrS (goodNumericColsOf pd).head? (numericColsOf pd).head?

/-- Recommendation 5: area chart (confidence 0.7). -/
def areaCands (pd : ParsedData) (features : DataFeatures) : List ChartRecommendation :=
  if features.hasTimeSeries ∧ 0 < features.numNumericColumns then
    match areaTimeCol pd, areaValueCol pd with
    | some t, some v =>
      if t ≠ "" ∧ v ≠ "" ∧ ¬ isIdentifierColumn v then
        [{ chartType := .area
           confidence := 0.7
           xAxis := some t
           yAxis := some v
           title := v ++ " Trend (Area)"
           reasoning := "Time series data - area chart emphasizes volume and trends" }]
      else []
    | _, _ => []
  else []

/-- recommendCharts of ml-chart-recommender.ts: the five rules in program
order, then a stable sort by descending confidence. -/
def recommendCharts (pd : ParsedData) (features : DataFeatures) : List ChartRecommendation :=
  sortByLe confDescLe
    (barCands pd features ++ lineCands pd features ++ pieCands pd features ++
      scatterCands pd features ++ areaCands pd features)

/-! ### JS plain-object model

A plain object is an insertion-ordered association list; assigning to an
existing key keeps its position.  Object.entries enumerates array-index-like
keys first in ascending numeric order, then the remaining string keys in
insertion order (ECMAScript OrdinaryOwnPropertyKeys). -/

/-- Assignment obj[k] = v: update in place or append. -/
def objSet (l : List (String × α)) (k : String) (v : α) : List (String × α) :=
  match l with
  | [] => [(k, v)]
  | (k2, v2) :: rest =>
    if k2 = k then (k2, v) :: rest else (k2, v2) :: objSet rest k v

/-- Whether a key is an array index: the canonical decimal form of an
integer below 2^32 - 1. -/
def isArrayIdxKey (s : String) : Bool :=
  s.data ≠ [] ∧ s.data.all (fun c => c.isDigit) ∧
    (s = "0" ∨ ¬ strBegins s "0") ∧ digitsToNat s.data < 4294967295

/-- Numeric value of an array-index key. -/
def keyNat (s : String) : Nat :=
  if s.data.all (fun c => c.isDigit) then digitsToNat s.data else 0

/-- Object.entries enumeration order. -/
def jsEntries (l : List (String × α)) : List (String × α) :=
  sortByLe (fun a b => keyNat a.1 ≤ keyNat b.1)
      (l.filter (fun p => isArrayIdxKey p.1)) ++
    l.filter (fun p => ¬ isArrayIdxKey p.1)

/-- aggregated[category].push(value), creating the bucket on first use. -/
def addToGroup (l : List (String × List ℚ)) (k : String) (v : ℚ) :
    List (String × List ℚ) :=
  match l with
  | [] => [(k, [v])]
  | (k2, vs) :: rest =>
    if k2 = k then (k2, vs ++ [v]) :: rest else (k2, vs) :: addToGroup rest k v

/-- counts[value] = (counts[value] || 0) + 1. -/
def bumpCount (l : List (String × Nat)) (k : String) : List (String × Nat) :=
  match l with
  | [] => [(k, 1)]
  | (k2, n) :: rest =>
    if k2 = k then (k2, n + 1) :: rest else (k2, n) :: bumpCount rest k

/-- Association lookup on an object (same as rowLookup, at any value type). -/
def objLookup (l : List (String × α)) (k : String) : Option α :=
  (l.find? (fun p => p.1 == k)).map (fun p => p.2)

/-! ### generateChart (ml-chart-recommender.ts) -/

/-- The grouping key of the bar branch:
String(row[xAxis] || 'Unknown').trim(). -/
def barKey (r : Row) (x : String) : String :=
  jsStrOrUnknown (rowLookup r x)

/-- The value of the bar branch: Number(row[yAxis]) || 0. -/
def numOr0 (o : Option JsValue) : ℚ :=
  (jsNumberU o).getD 0

/-- The bar-branch accumulation loop over the rows. -/
def barGroupsAux (x y : String) (acc : List (String × List ℚ)) :
    List Row → List (String × List ℚ)
  | [] => acc
  | r :: rs => barGroupsAux x y (addToGroup acc (barKey r x) (numOr0 (rowLookup r y))) rs

/-- The aggregated object of the bar branch. -/
def barGroups (x y : String) (rows : List Row) : List (String × List ℚ) :=
  barGroupsAux x y [] rows

/-- The bar branch data: entries of the aggregated object mapped to
single-category mean records, capped at 20. -/
def barData (x y : String) (rows : List Row) : List Row :=
  ((jsEntries (barGroups x y rows)).map (fun p =>
    objSet (objSet [] x (.strV p.1)) y (.numV (meanQ p.2)))).take 20

/-- The pie-branch qualifying key of a row: Some value when it is counted
(nonempty after trimming and not the literal Unknown). -/
def pieKeyQ (x : String) (r : Row) : Option String :=
  let v := jsStrOrUnknown (rowLookup r x)
  if v ≠ "" ∧ v ≠ "Unknown" then some v else none

/-- The pie-branch counting loop over the rows. -/
def pieCountsAux (x : String) (acc : List (String × Nat)) :
    List Row → List (String × Nat)
  | [] => acc
  | r :: rs =>
    match pieKeyQ x r with
    | some k => pieCountsAux x (bumpCount acc k) rs
    | none => pieCountsAux x acc rs

/-- The counts object of the pie branch. -/
def pieCounts (x : String) (rows : List Row) : List (String × Nat) :=
  pieCountsAux x [] rows

/-- The pie branch data: entries mapped to name/value records, sorted
descending by count (the sort commutes with the record map), top 15. -/
def pieData (x : String) (rows : List Row) : List Row :=
  ((sortByLe (fun a b => (b.2 : ℚ) ≤ (a.2 : ℚ)) (jsEntries (pieCounts x rows))).map
    (fun p => [("name", JsValue.strV p.1), ("value", JsValue.numV (p.2 : ℚ))])).take 15

/-- The scatter/line row filter: both axis values defined, non-null and
numeric-coercible. -/
def keepPair (x y : String) (r : Row) : Bool :=
  match rowLookup r x, rowLookup r y with
  | some vx, some vy =>
    vx ≠ .nullV ∧ vy ≠ .nullV ∧ (jsNumber vx).isSome ∧ (jsNumber vy).isSome
  | _, _ => false

/-- The scatter/line row projection to a numeric pair record. -/
def coercePair (x y : String) (r : Row) : Row :=
  objSet (objSet [] x (.numV (numOr0 (rowLookup r x)))) y (.numV (numOr0 (rowLookup r y)))

/-- The scatter/line branch data, capped at 200 (scatter) or 100 (line). -/
def scatterLineData (ct : ChartType) (x y : String) (rows : List Row) : List Row :=
  ((rows.filter (keepPair x y)).map (coercePair x y)).take
    (if ct = .scatter then 200 else 100)

/-- The axis-defaulting chain shared by the bar and pie branches for the
categorical x axis. -/
def defaultStringAxis (pd : ParsedData) : Option String :=
  jsOrS (jsOrS
    ((goodStringColsOf pd).find? (fun c => notPlaceholder c))
    ((stringColsOf pd).find? (fun c => notPlaceholder c)))
    (stringColsOf pd).head?

/-- The bar-branch numeric y-axis defaulting chain. -/
def defaultNumericAxis (pd : ParsedData) : Option String :=
  jsOrS (jsOrS
    ((goodNumericColsOf pd).find? (fun c => notPlaceholder c))
    ((numericColsOf pd).find? (fun c => notPlaceholder c)))
    (numericColsOf pd).head?

/-- The scatter/line numeric x-axis defaulting chain (same pools as the
bar y axis). -/
def defaultScatterX (pd : ParsedData) : Option String :=
  defaultNumericAxis pd

/-- The scatter/line numeric y-axis defaulting chain, avoiding the chosen
x axis, with the unconditional index fallbacks. -/
def defaultScatterY (pd : ParsedData) (fx : Option String) : Option String :=
  jsOrS (jsOrS (jsOrS
    ((goodNumericColsOf pd).find? (fun c => some c ≠ fx ∧ notPlaceholder c))
    ((numericColsOf pd).find? (fun c => some c ≠ fx ∧ notPlaceholder c)))
    ((numericColsOf pd).get? 1))
    (numericColsOf pd).head?

/-- One branch outcome: data rows, title and the resolved axis bindings;
none models an early return null. -/
def generateChartStep (pd : ParsedData) (chartType : ChartType)
    (xAxis yAxis dataKey : Option String) :
    Option (List Row × String × Option String × Option String × Option String) :=
  match chartType with
  | .bar =>
    let fx := if jsFalsyS xAxis then defaultStringAxis pd else xAxis
    let fy := if jsFalsyS yAxis then defaultNumericAxis pd else yAxis
    if jsFalsyS fx ∨ jsFalsyS fy then none
    else match fx, fy with
      | some x, some y =>
        some (barData x y pd.rows, y ++ " by " ++ x, some x, some y, dataKey)
      | _, _ => none
  | .pie =>
    let fx := if jsFalsyS xAxis then defaultStringAxis pd else xAxis
    if jsFalsyS fx then none
    else match fx with
      | some x => some (pieData x pd.rows, "Distribution of " ++ x, some x, yAxis, some "value")
      | none => none
  | .scatter =>
    let fx := if jsFalsyS xAxis then defaultScatterX pd else xAxis
    let fy := if jsFalsyS yAxis then defaultScatterY pd fx else yAxis
    if jsFalsyS fx ∨ jsFalsyS fy then none
    else match fx, fy with
      | some x, some y =>
        some (scatterLineData .scatter x y pd.rows, y ++ " vs " ++ x, some x, some y, dataKey)
      | _, _ => none
  | .line =>
    let fx := if jsFalsyS xAxis then defaultScatterX pd else xAxis
    let fy := if jsFalsyS yAxis then defaultScatterY pd fx else yAxis
    if jsFalsyS fx ∨ jsFalsyS fy then none
    else match fx, fy with
      | some x, some y =>
        some (scatterLineData .line x y pd.rows, y ++ " over " ++ x, some x, some y, dataKey)
      | _, _ => none
  | .area =>
    -- No branch of generateChart handles area: data stays empty and the
    -- final length check returns null.
    some ([], "", xAxis, yAxis, dataKey)

/-- generateChart of ml-chart-recommender.ts.  The id embeds Date.now(),
modelled as the explicit now argument. -/
def generateChart (pd : ParsedData) (chartType : ChartType)
    (xAxis yAxis dataKey : Option String) (now : Nat) : Option ChartConfig :=
  match generateChartStep pd chartType xAxis yAxis dataKey with
  | none => none
  | some (data, title, fx, fy, fk) =>
    if data.isEmpty then none
    else some
      { id := chartTypeName chartType ++ "-" ++ toString now
        type := chartType
        title := title
        xAxis := fx
        yAxis := fy
        dataKey := fk
        data := data }

/-- A ChartConfig with the id field cleared, for stating determinism of
everything except the timestamped id. -/
def eraseId (c : ChartConfig) : ChartConfig := { c with id := "" }

/-! ### Correlations (metrics-extractor.ts)

calculateCorrelation takes Math.sqrt as an explicit parameter sqrtQ, since
square roots leave the rationals; every verified property holds for any
sqrtQ that is zero exactly at zero, which IEEE sqrt is. -/

/-- The jointly numeric value pairs of two columns: rows where
Number(row[col1]) and Number(row[col2]) are both not NaN. -/
def jointPairs (rows : List Row) (c1 c2 : String) : List (ℚ × ℚ) :=
  rows.filterMap (fun r =>
    match jsNumberU (rowLookup r c1), jsNumberU (rowLookup r c2) with
    | some a, some b => some (a, b)
    | _, _ => none)

/-- The squared denominator of the Pearson coefficient:
(n sumX2 - sumX^2) (n sumY2 - sumY^2). -/
def corrDenomSq (x y : List ℚ) : ℚ :=
  let n : ℚ := x.length
  let sumX := x.sum
  let sumY := y.sum
  let sumX2 := (x.map (fun v => v * v)).sum
  let sumY2 := (y.map (fun v => v * v)).sum
  (n * sumX2 - sumX * sumX) * (n * sumY2 - sumY * sumY)

/-- The numerator of the Pearson coefficient: n sumXY - sumX sumY. -/
def corrNumerator (x y : List ℚ) : ℚ :=
  let n : ℚ := x.length
  n * ((x.zip y).map (fun p => p.1 * p.2)).sum - x.sum * y.sum

/-- parseFloat(v.toFixed(3)): round to three decimal places (the binary
floating-point noise of toFixed is not modelled). -/
def roundTo3 (q : ℚ) : ℚ := (round (q * 1000) : ℚ) / 1000

/-- calculateCorrelation of metrics-extractor.ts. -/
def calculateCorrelation (sqrtQ : ℚ → ℚ) (x y : List ℚ) : ℚ :=
  if x.length ≠ y.length ∨ x.length = 0 then 0
  else
    let denominator := sqrtQ (corrDenomSq x y)
    if denominator = 0 then 0
    else roundTo3 (corrNumerator x y / denominator)

/-- The nested correlations record, modelled extensionally. -/
def CorrMap := String → String → Option ℚ

/-- The empty correlations object. -/
def corrEmpty : CorrMap := fun _ _ => none

/-- correlations[a][b] = v. -/
def corrSet (m : CorrMap) (a b : String) (v : ℚ) : CorrMap :=
  fun x y => if x = a ∧ y = b then some v else m x y

/-- The coefficient computed for one column pair. -/
def corrValueOf (rows : List Row) (sqrtQ : ℚ → ℚ) (c1 c2 : String) : ℚ :=
  calculateCorrelation sqrtQ ((jointPairs rows c1 c2).map (fun p => p.1))
    ((jointPairs rows c1 c2).map (fun p => p.2))

/-- The body of the inner loop: store the coefficient under both orders
when the columns share at least two jointly numeric rows. -/
def corrMaybeAdd (rows : List Row) (sqrtQ : ℚ → ℚ) (m : CorrMap)
    (c1 c2 : String) : CorrMap :=
  if 1 < (jointPairs rows c1 c2).length then
    corrSet (corrSet m c1 c2 (corrValueOf rows sqrtQ c1 c2)) c2 c1
      (corrValueOf rows sqrtQ c1 c2)
  else m

/-- The inner loop over the later numeric columns. -/
def corrInner (rows : List Row) (sqrtQ : ℚ → ℚ) (c1 : String) :
    List String → CorrMap → CorrMap
  | [], m => m
  | c2 :: rest, m => corrInner rows sqrtQ c1 rest (corrMaybeAdd rows sqrtQ m c1 c2)

/-- The outer loop over the numeric columns. -/
def corrOuter (rows : List Row) (sqrtQ : ℚ → ℚ) :
    List String → CorrMap → CorrMap
  | [], m => m
  | c :: rest, m => corrOuter rows sqrtQ rest (corrInner rows sqrtQ c rest m)

/-- The correlations component of extractMetrics of metrics-extractor.ts. -/
def extractMetricsCorrelations (pd : ParsedData) (sqrtQ : ℚ → ℚ) : CorrMap :=
  if 2 ≤ (numericColsOf pd).length then
    corrOuter pd.rows sqrtQ (numericColsOf pd) corrEmpty
  else corrEmpty

/-! ### Concrete tables used as witnesses and counterexamples -/

/-- The bar-aggregation example table of the spec:
[{cat:"A",val:10},{cat:"A",val:20},{cat:"B",val:5}]. -/
def pdAB : ParsedData :=
  { columns := ["cat", "val"]
    rows := [[("cat", JsValue.strV "A"), ("val", JsValue.numV 10)],
             [("cat", JsValue.strV "A"), ("val", JsValue.numV 20)],
             [("cat", JsValue.strV "B"), ("val", JsValue.numV 5)]]
    columnTypes := [("cat", ColumnType.string), ("val", ColumnType.number)] }

/-- A table whose x-axis column holds the number 0 in its only row. -/
def pdZero : ParsedData :=
  { columns := ["cat", "val"]
    rows := [[("cat", JsValue.numV 0), ("val", JsValue.numV 7)]]
    columnTypes := [("cat", ColumnType.number), ("val", ColumnType.number)] }

/-- A table whose categories are the numeric strings "10" and "2" in that
first-seen order. -/
def pdTen : ParsedData :=
  { columns := ["cat", "val"]
    rows := [[("cat", JsValue.strV "10"), ("val", JsValue.numV 1)],
             [("cat", JsValue.strV "2"), ("val", JsValue.numV 2)]]
    columnTypes := [("cat", ColumnType.string), ("val", ColumnType.number)] }

/-- A one-column numeric table (no string columns). -/
def pdOneNum : ParsedData :=
  { columns := ["a"]
    rows := [[("a", JsValue.numV 1)]]
    columnTypes := [("a", ColumnType.number)] }

/-- A table whose only numeric column is placeholder-named. -/
def pdPlaceholder : ParsedData :=
  { columns := ["cat", "column1"]
    rows := [[("cat", JsValue.strV "A"), ("column1", JsValue.numV 1)],
             [("cat", JsValue.strV "A"), ("column1", JsValue.numV 2)],
             [("cat", JsValue.strV "A"), ("column1", JsValue.numV 3)],
             [("cat", JsValue.strV "B"), ("column1", JsValue.numV 4)],
             [("cat", JsValue.strV "B"), ("column1", JsValue.numV 5)]]
    columnTypes := [("cat", ColumnType.string), ("column1", ColumnType.number)] }

/-- One row of the categorical-plus-two-numeric witness table. -/
def rowCatXY (s : String) (a b : ℚ) : Row :=
  [("cat", JsValue.strV s), ("x", JsValue.numV a), ("y", JsValue.numV b)]

/-- Twenty rows with a two-valued category and two numeric columns: it
yields bar, scatter and line candidates. -/
def pdCatScatter : ParsedData :=
  { columns := ["cat", "x", "y"]
    rows := (List.replicate 10 (rowCatXY "A" 1 2)) ++ (List.replicate 10 (rowCatXY "B" 3 4))
    columnTypes := [("cat", ColumnType.string), ("x", ColumnType.number),
                    ("y", ColumnType.number)] }

/-- A one-string-column table with 30 distinct values. -/
def pdThirty : ParsedData :=
  { columns := ["c"]
    rows := (List.range 30).map (fun i => [("c", JsValue.strV ("v" ++ toString i))])
    columnTypes := [("c", ColumnType.string)] }

/-- 500 rows of valid numeric pairs. -/
def pd500 : ParsedData :=
  { columns := ["x", "y"]
    rows := List.replicate 500 [("x", JsValue.numV 1), ("y", JsValue.numV 2)]
    columnTypes := [("x", ColumnType.number), ("y", ColumnType.number)] }

/-- Two numeric columns with two jointly numeric rows, so a correlation
entry is stored for the pair. -/
def pdCorr : ParsedData :=
  { columns := ["a", "b"]
    rows := [[("a", JsValue.numV 1), ("b", JsValue.numV 2)],
             [("a", JsValue.numV 2), ("b", JsValue.numV 4)]]
    columnTypes := [("a", ColumnType.number), ("b", ColumnType.number)] }

/-! ### Counterexamples -/

/-- C1 counterexample: a column whose only sampled value is the JavaScript
boolean true is classified as number by detectColumnTypes, not boolean:
its allNumbers check runs first and Number(true) = 1 is not NaN.  This
refutes the claimed boolean-over-number precedence for that function. -/
theorem detectColumnTypes_bool_literal_counterexample :
    objLookup (detectColumnTypes (fun _ => false)
      [[("b", JsValue.boolV true)]] ["b"]) "b" = some ColumnType.number ∧
    some ColumnType.number ≠ some ColumnType.boolean := by
  decide

/-- C2 counterexample: two generateChart calls with identical ParsedData and
axis arguments but different Date.now() values return different
ChartConfigs (the id embeds the timestamp), refuting bit-identical repeated
materialization. -/
theorem generateChart_timestamp_id_counterexample :
    generateChart pdAB ChartType.bar (some "cat") (some "val") none 0 ≠
      generateChart pdAB ChartType.bar (some "cat") (some "val") none 1 := by
  decide

/-- C3 counterexample: a bar request whose caller-supplied axes name no
column of the table is not rejected: every row groups under "Unknown" with
value 0 and a non-null payload is returned whose axes are not table
columns. -/
theorem generateChart_bar_unknown_axis_counterexample :
    (generateChart pdOneNum ChartType.bar (some "zzz") (some "www") none 0).map
        (fun c => (c.xAxis, c.yAxis, c.data)) =
      some (some "zzz", some "www",
        [[("zzz", JsValue.strV "Unknown"), ("www", JsValue.numV 0)]]) ∧
    ("zzz" ∈ pdOneNum.columns) = False ∧ ("www" ∈ pdOneNum.columns) = False := by
  refine ⟨by decide, ?_, ?_⟩ <;> simp [pdOneNum]

/-- C4 counterexample: when every numeric column is placeholder-named, the
bar rule emits a candidate whose value column is a placeholder name
(the final guard checks the placeholder patterns only on the category
column), refuting the claimed rejection. -/
theorem bar_placeholder_value_column_counterexample :
    (recommendCharts pdPlaceholder (extractFeatures pdPlaceholder)).map
        (fun r => (r.chartType, r.yAxis)) = [(ChartType.bar, some "column1")] ∧
    isPlaceholderName "column1" = true := by
  decide

/-- C5 counterexample: generateChart for bar maps every falsy x-value to
"Unknown" (here the number 0, which the claim would group under "0"), and
emits groups in JavaScript object key order, which places canonical
integer-string keys ascending first (here "2" before the first-seen
"10"). -/
theorem bar_materialization_counterexample :
    (generateChart pdZero ChartType.bar (some "cat") (some "val") none 0).map
        (fun c => c.data) =
      some [[("cat", JsValue.strV "Unknown"), ("val", JsValue.numV 7)]] ∧
    (generateChart pdTen ChartType.bar (some "cat") (some "val") none 0).map
        (fun c => c.data) =
      some [[("cat", JsValue.strV "2"), ("val", JsValue.numV 2)],
            [("cat", JsValue.strV "10"), ("val", JsValue.numV 1)]] := by
  constructor <;> decide

/-! ### Lemmas about the stable sort -/

theorem mem_insertLe {α : Type} {le : α → α → Bool} {x a : α} {l : List α} :
    a ∈ insertLe le x l ↔ a = x ∨ a ∈ l := by
  induction l with
  | nil => simp [insertLe]
  | cons y ys ih =>
    simp only [insertLe]
    split
    · simp
    · simp only [List.mem_cons, ih]
      tauto

theorem mem_sortByLe {α : Type} {le : α → α → Bool} {a : α} {l : List α} :
    a ∈ sortByLe le l ↔ a ∈ l := by
  induction l with
  | nil => simp [sortByLe]
  | cons y ys ih => simp [sortByLe, mem_insertLe, ih]

theorem length_insertLe {α : Type} (le : α → α → Bool) (x : α) (l : List α) :
    (insertLe le x l).length = l.length + 1 := by
  induction l with
  | nil => rfl
  | cons y ys ih =>
    simp only [insertLe]
    split
    · rfl
    · simp [ih]

theorem length_sortByLe {α : Type} (le : α → α → Bool) (l : List α) :
    (sortByLe le l).length = l.length := by
  induction l with
  | nil => rfl
  | cons y ys ih => simp [sortByLe, length_insertLe, ih]

theorem pairwise_insertLe {α : Type} {le : α → α → Bool}
    (htot : ∀ a b, le a b = true ∨ le b a = true)
    (htrans : ∀ a b c, le a b = true → le b c = true → le a c = true)
    {x : α} {l : List α} (hl : l.Pairwise (fun a b => le a b = true)) :
    (insertLe le x l).Pairwise (fun a b => le a b = true) := by
  induction l with
  | nil => simp [insertLe]
  | cons y ys ih =>
    have hl1 := (List.pairwise_cons.mp hl).1
    have hl2 := (List.pairwise_cons.mp hl).2
    simp only [insertLe]
    split
    · rename_i hxy
      exact List.pairwise_cons.mpr
        ⟨fun z hz => by
          rcases List.mem_cons.mp hz with rfl | hz
          · exact hxy
          · exact htrans x y z hxy (hl1 z hz),
         hl⟩
    · rename_i hnxy
      have hyx : le y x = true := by
        rcases htot x y with h | h
        · exact absurd h hnxy
        · exact h
      exact List.pairwise_cons.mpr
        ⟨fun z hz => by
          rcases mem_insertLe.mp hz with rfl | hz
          · exact hyx
          · exact hl1 z hz,
         ih hl2⟩

theorem pairwise_sortByLe {α : Type} {le : α → α → Bool}
    (htot : ∀ a b, le a b = true ∨ le b a = true)
    (htrans : ∀ a b c, le a b = true → le b c = true → le a c = true)
    (l : List α) :
    (sortByLe le l).Pairwise (fun a b => le a b = true) := by
  induction l with
  | nil => simp [sortByLe]
  | cons y ys ih => exact pairwise_insertLe htot htrans ih

/-! ### Lemmas about object lookup -/

theorem objLookup_eq_some_of_mem {α : Type} {l : List (String × α)}
    (hn : (l.map Prod.fst).Nodup) {k : String} {v : α} (hm : (k, v) ∈ l) :
    objLookup l k = some v := by
  induction l with
  | nil => cases hm
  | cons p ps ih =>
    have hn2 := (List.nodup_cons.mp hn).2
    rcases List.mem_cons.mp hm with h | hm2
    · subst h
      simp [objLookup, List.find?_cons_of_pos]
    · have hk : ¬ ((fun p => p.1 == k) p) = true := by
        intro h
        have hpk : p.1 = k := by simpa using h
        have hkmem : k ∈ ps.map Prod.fst :=
          List.mem_map.mpr ⟨(k, v), hm2, rfl⟩
        exact (List.nodup_cons.mp hn).1 (hpk ▸ hkmem)
      have hkf : (p.1 == k) = false := by simpa using hk
      have hstep : objLookup (p :: ps) k = objLookup ps k := by
        unfold objLookup
        simp only [List.find?, hkf]
      rw [hstep]
      exact ih hn2 hm2

theorem objLookup_map_self {α : Type} {g : String → α} {cols : List String}
    {c : String} (hc : c ∈ cols) :
    objLookup (cols.map (fun c => (c, g c))) c = some (g c) := by
  induction cols with
  | nil => cases hc
  | cons d ds ih =>
    by_cases hd : d = c
    · subst hd
      simp [objLookup, List.find?_cons_of_pos]
    · have hne : ¬ ((fun p => p.1 == c) ((d, g d))) = true := by simpa using hd
      have hc2 : c ∈ ds := by
        rcases List.mem_cons.mp hc with h | h
        · exact absurd h.symm hd
        · exact h
      have hnef : (d == c) = false := by simpa using hd
      have hstep : objLookup (List.map (fun c => (c, g c)) (d :: ds)) c =
          objLookup (List.map (fun c => (c, g c)) ds) c := by
        unfold objLookup
        simp only [List.map_cons, List.find?, hnef]
      rw [hstep]
      exact ih hc2

theorem jsOrS_eq_some {a b : Option String} {c : String}
    (h : jsOrS a b = some c) :
    (a = some c ∧ jsFalsyS a = false) ∨ (jsFalsyS a = true ∧ b = some c) := by
  unfold jsOrS at h
  split at h
  · rename_i hf
    exact Or.inr ⟨hf, h⟩
  · rename_i hf
    exact Or.inl ⟨h, by simpa using hf⟩

theorem mem_of_headQ {α : Type} {l : List α} {a : α} (h : l.head? = some a) :
    a ∈ l := by
  cases l with
  | nil => cases h
  | cons y ys =>
    have hya : y = a := by simpa [List.head?] using h
    exact hya ▸ List.mem_cons_self y ys

theorem jsOrS_eq_none {a b : Option String} (h : jsOrS a b = none) :
    b = none ∧ (a = none ∨ a = some "") := by
  unfold jsOrS at h
  split at h
  · rename_i hf
    refine ⟨h, ?_⟩
    cases a with
    | none => exact Or.inl rfl
    | some s =>
      simp only [jsFalsyS, decide_eq_true_eq] at hf
      exact Or.inr (by rw [hf])
  · exfalso
    rename_i hf
    rw [h] at hf
    exact hf rfl

theorem jsFalsyS_true {o : Option String} (h : jsFalsyS o = true) :
    o = none ∨ o = some "" := by
  cases o with
  | none => exact Or.inl rfl
  | some s =>
    simp only [jsFalsyS, decide_eq_true_eq] at h
    exact Or.inr (by rw [h])

theorem mem_stringColsOf {pd : ParsedData} {c : String}
    (h : c ∈ stringColsOf pd) : c ∈ pd.columns :=
  (List.mem_filter.mp h).1

theorem mem_numericColsOf {pd : ParsedData} {c : String}
    (h : c ∈ numericColsOf pd) : c ∈ pd.columns :=
  (List.mem_filter.mp h).1

theorem mem_dateColsOf {pd : ParsedData} {c : String}
    (h : c ∈ dateColsOf pd) : c ∈ pd.columns :=
  (List.mem_filter.mp h).1

/-- Any column produced by the bar-rule category chain is a string column. -/
theorem barCategoryCol_mem {pd : ParsedData} {c : String}
    (h : barCategoryCol pd = some c) : c ∈ stringColsOf pd := by
  unfold barCategoryCol at h
  rcases jsOrS_eq_some h with ⟨h1, _⟩ | ⟨_, h1⟩
  · rcases jsOrS_eq_some h1 with ⟨h2, _⟩ | ⟨_, h2⟩
    · rcases jsOrS_eq_some h2 with ⟨h3, _⟩ | ⟨_, h3⟩
      · exact List.mem_of_mem_filter (List.mem_of_find?_eq_some h3)
      · exact List.mem_of_mem_filter (List.mem_of_find?_eq_some h3)
    · exact List.mem_of_find?_eq_some h2
  · exact mem_of_headQ h1

/-- Any column produced by the bar-rule value chain is a numeric column;
when every numeric column is nonempty-named and some numeric column is not
placeholder-named, the produced column is not placeholder-named. -/
theorem barValueCol_mem {pd : ParsedData} {v : String}
    (h : barValueCol pd = some v) :
    v ∈ numericColsOf pd ∧
      ((∀ n ∈ numericColsOf pd, n ≠ "") →
        (∃ n ∈ numericColsOf pd, notPlaceholder n = true) →
        notPlaceholder v = true) := by
  unfold barValueCol at h
  constructor
  · rcases jsOrS_eq_some h with ⟨h1, _⟩ | ⟨_, h1⟩
    · rcases jsOrS_eq_some h1 with ⟨h2, _⟩ | ⟨_, h2⟩
      · exact List.mem_of_mem_filter (List.mem_of_find?_eq_some h2)
      · exact List.mem_of_find?_eq_some h2
    · exact mem_of_headQ h1
  · intro hne hex
    rcases jsOrS_eq_some h with ⟨h1, _⟩ | ⟨hf, _⟩
    · rcases jsOrS_eq_some h1 with ⟨h2, _⟩ | ⟨_, h2⟩
      · exact List.find?_some h2
      · exact List.find?_some h2
    · exfalso
      rcases jsFalsyS_true hf with hn | he
      · rcases jsOrS_eq_none hn with ⟨hb, _⟩
        rcases hex with ⟨n, hnmem, hnp⟩
        exact (List.find?_eq_none.mp hb n hnmem) hnp
      · rcases jsOrS_eq_some he with ⟨h2, _⟩ | ⟨_, h2⟩
        · exact hne "" (List.mem_of_mem_filter (List.mem_of_find?_eq_some h2)) rfl
        · exact hne "" (List.mem_of_find?_eq_some h2) rfl

/-- What every emitted bar candidate satisfies. -/
theorem mem_barCands {pd : ParsedData} {f : DataFeatures}
    {r : ChartRecommendation} (h : r ∈ barCands pd f) :
    r.chartType = ChartType.bar ∧ r.confidence = 0.95 ∧
    ∃ c v, r.xAxis = some c ∧ r.yAxis = some v ∧
      c ∈ stringColsOf pd ∧ v ∈ numericColsOf pd ∧
      isIdentifierColumn c = false ∧ isIdentifierColumn v = false ∧
      notPlaceholder c = true ∧ c ≠ "" ∧ v ≠ "" ∧
      ((∀ n ∈ numericColsOf pd, n ≠ "") →
        (∃ n ∈ numericColsOf pd, notPlaceholder n = true) →
        notPlaceholder v = true) := by
  unfold barCands at h
  split at h
  case isFalse => cases h
  split at h
  case h_2 => cases h
  rename_i cc vv hcat hval
  split at h
  case isFalse => cases h
  rename_i hguard
  obtain ⟨hc0, hv0, hic, hiv, hpc⟩ := hguard
  rw [Bool.not_eq_true] at hic hiv
  have hr := List.mem_singleton.mp h
  subst hr
  refine ⟨rfl, rfl, cc, vv, rfl, rfl, barCategoryCol_mem hcat,
    (barValueCol_mem hval).1, hic, hiv, hpc, hc0, hv0, (barValueCol_mem hval).2⟩

/-- Any column produced by the line-rule time chain is a table column. -/
theorem lineTimeCol_mem {pd : ParsedData} {t : String}
    (h : lineTimeCol pd = some t) : t ∈ pd.columns := by
  unfold lineTimeCol at h
  rcases jsOrS_eq_some h with ⟨h1, _⟩ | ⟨_, h1⟩
  · rcases jsOrS_eq_some h1 with ⟨h2, _⟩ | ⟨_, h2⟩
    · rcases jsOrS_eq_some h2 with ⟨h3, _⟩ | ⟨_, h3⟩
      · exact mem_dateColsOf (mem_of_headQ h3)
      · exact List.mem_of_find?_eq_some h3
    · exact mem_numericColsOf (List.mem_of_mem_filter (mem_of_headQ h2))
  · exact mem_numericColsOf (mem_of_headQ h1)

/-- Any column produced by the line-rule value chain is a numeric column. -/
theorem lineValueCol_mem {pd : ParsedData} {tc : Option String} {v : String}
    (h : lineValueCol pd tc = some v) : v ∈ numericColsOf pd := by
  unfold lineValueCol at h
  rcases jsOrS_eq_some h with ⟨h1, _⟩ | ⟨_, h1⟩
  · rcases jsOrS_eq_some h1 with ⟨h2, _⟩ | ⟨_, h2⟩
    · exact List.mem_of_mem_filter (List.mem_of_find?_eq_some h2)
    · exact List.mem_of_find?_eq_some h2
  · exact mem_of_headQ h1

/-- What every emitted line candidate satisfies. -/
theorem mem_lineCands {pd : ParsedData} {f : DataFeatures}
    {r : ChartRecommendation} (h : r ∈ lineCands pd f) :
    r.chartType = ChartType.line ∧
    (r.confidence = 0.95 ∨ r.confidence = 0.75 ∨ r.confidence = 0.65) ∧
    (∀ c, r.xAxis = some c → c ∈ pd.columns) ∧
    (∀ c, r.yAxis = some c → c ∈ pd.columns) := by
  unfold lineCands at h
  split at h
  · split at h
    case h_2 => cases h
    rename_i tt vv htime hval
    split at h
    case isFalse => cases h
    have hr := List.mem_singleton.mp h
    subst hr
    refine ⟨rfl, Or.inl rfl, ?_, ?_⟩
    · intro c hc
      cases hc
      exact lineTimeCol_mem htime
    · intro c hc
      cases hc
      exact mem_numericColsOf (lineValueCol_mem hval)
  · split at h
    · split at h
      · rename_i hgood
        have hr := List.mem_singleton.mp h
        subst hr
        rename_i a b rest
        refine ⟨rfl, Or.inr (Or.inl rfl), ?_, ?_⟩
        · intro c hc
          cases hc
          exact mem_numericColsOf (List.mem_of_mem_filter (hgood ▸ List.mem_cons_self _ _))
        · intro c hc
          cases hc
          exact mem_numericColsOf (List.mem_of_mem_filter
            (hgood ▸ List.mem_cons_of_mem _ (List.mem_cons_self _ _)))
      · split at h
        case h_2 => cases h
        rename_i hnum
        have hr := List.mem_singleton.mp h
        subst hr
        rename_i a b rest
        refine ⟨rfl, Or.inr (Or.inr rfl), ?_, ?_⟩
        · intro c hc
          cases hc
          exact mem_numericColsOf (hnum ▸ List.mem_cons_self _ _)
        · intro c hc
          cases hc
          exact mem_numericColsOf (hnum ▸ List.mem_cons_of_mem _ (List.mem_cons_self _ _))
    · cases h

/-- What every emitted pie candidate satisfies: no axis bindings at all. -/
theorem mem_pieCands {pd : ParsedData} {f : DataFeatures}
    {r : ChartRecommendation} (h : r ∈ pieCands pd f) :
    r.chartType = ChartType.pie ∧ r.confidence = 0.65 ∧
    r.xAxis = none ∧ r.yAxis = none ∧ r.dataKey = some "value" := by
  unfold pieCands at h
  split at h
  case isFalse => cases h
  split at h
  case h_2 => cases h
  split at h
  case isFalse => cases h
  split at h
  case isFalse => cases h
  have hr := List.mem_singleton.mp h
  subst hr
  exact ⟨rfl, rfl, rfl, rfl, rfl⟩

/-- What every emitted scatter candidate satisfies. -/
theorem mem_scatterCands {pd : ParsedData} {f : DataFeatures}
    {r : ChartRecommendation} (h : r ∈ scatterCands pd f) :
    r.chartType = ChartType.scatter ∧
    (r.confidence = 0.8 ∨ r.confidence = 0.6) ∧
    (∀ c, r.xAxis = some c → c ∈ numericColsOf pd) ∧
    (∀ c, r.yAxis = some c → c ∈ numericColsOf pd) := by
  unfold scatterCands at h
  split at h
  case isFalse => cases h
  split at h
  · rename_i hgood
    have hr := List.mem_singleton.mp h
    subst hr
    rename_i a b rest
    refine ⟨rfl, Or.inl rfl, ?_, ?_⟩
    · intro c hc
      cases hc
      exact List.mem_of_mem_filter (hgood ▸ List.mem_cons_self _ _)
    · intro c hc
      cases hc
      exact List.mem_of_mem_filter (hgood ▸ List.mem_cons_of_mem _ (List.mem_cons_self _ _))
  · split at h
    case h_2 => cases h
    rename_i hnum
    have hr := List.mem_singleton.mp h
    subst hr
    rename_i a b rest
    refine ⟨rfl, Or.inr rfl, ?_, ?_⟩
    · intro c hc
      cases hc
      exact hnum ▸ List.mem_cons_self _ _
    · intro c hc
      cases hc
      exact hnum ▸ List.mem_cons_of_mem _ (List.mem_cons_self _ _)

/-- Any column produced by the area-rule time chain is a table column. -/
theorem areaTimeCol_mem {pd : ParsedData} {t : String}
    (h : areaTimeCol pd = some t) : t ∈ pd.columns := by
  unfold areaTimeCol at h
  rcases jsOrS_eq_some h with ⟨h1, _⟩ | ⟨_, h1⟩
  · exact mem_dateColsOf (mem_of_headQ h1)
  · exact List.mem_of_find?_eq_some h1

/-- Any column produced by the area-rule value chain is a numeric column. -/
theorem areaValueCol_mem {pd : ParsedData} {v : String}
    (h : areaValueCol pd = some v) : v ∈ numericColsOf pd := by
  unfold areaValueCol at h
  rcases jsOrS_eq_some h with ⟨h1, _⟩ | ⟨_, h1⟩
  · exact List.mem_of_mem_filter (mem_of_headQ h1)
  · exact mem_of_headQ h1

/-- What every emitted area candidate satisfies. -/
theorem mem_areaCands {pd : ParsedData} {f : DataFeatures}
    {r : ChartRecommendation} (h : r ∈ areaCands pd f) :
    r.chartType = ChartType.area ∧ r.confidence = 0.7 ∧
    (∀ c, r.xAxis = some c → c ∈ pd.columns) ∧
    (∀ c, r.yAxis = some c → c ∈ pd.columns) := by
  unfold areaCands at h
  split at h
  case isFalse => cases h
  split at h
  case h_2 => cases h
  rename_i tt vv htime hval
  split at h
  case isFalse => cases h
  have hr := List.mem_singleton.mp h
  subst hr
  refine ⟨rfl, rfl, ?_, ?_⟩
  · intro c hc
    cases hc
    exact areaTimeCol_mem htime
  · intro c hc
    cases hc
    exact mem_numericColsOf (areaValueCol_mem hval)

/-- Decomposition of recommendCharts membership into the five rules. -/
theorem mem_recommendCharts {pd : ParsedData} {f : DataFeatures}
    {r : ChartRecommendation} (h : r ∈ recommendCharts pd f) :
    r ∈ barCands pd f ∨ r ∈ lineCands pd f ∨ r ∈ pieCands pd f ∨
      r ∈ scatterCands pd f ∨ r ∈ areaCands pd f := by
  unfold recommendCharts at h
  have hm := mem_sortByLe.mp h
  simp only [List.mem_append] at hm
  tauto

theorem confDescLe_total (a b : ChartRecommendation) :
    confDescLe a b = true ∨ confDescLe b a = true := by
  unfold confDescLe
  rcases le_total b.confidence a.confidence with h | h
  · exact Or.inl (decide_eq_true h)
  · exact Or.inr (decide_eq_true h)

theorem confDescLe_trans (a b c : ChartRecommendation)
    (h1 : confDescLe a b = true) (h2 : confDescLe b c = true) :
    confDescLe a c = true := by
  unfold confDescLe at h1 h2 ⊢
  exact decide_eq_true (le_trans (of_decide_eq_true h2) (of_decide_eq_true h1))

/-- The recommendation list is sorted by descending confidence. -/
theorem recommendCharts_sorted (pd : ParsedData) (f : DataFeatures) :
    (recommendCharts pd f).Pairwise
      (fun a b => b.confidence ≤ a.confidence) := by
  have hp := pairwise_sortByLe confDescLe_total confDescLe_trans
    (barCands pd f ++ lineCands pd f ++ pieCands pd f ++
      scatterCands pd f ++ areaCands pd f)
  exact hp.imp (fun h => of_decide_eq_true h)

/-- A bar element of the recommendation list has its fixed confidence. -/
theorem bar_mem_confidence {pd : ParsedData} {f : DataFeatures}
    {r : ChartRecommendation} (h : r ∈ recommendCharts pd f)
    (ht : r.chartType = ChartType.bar) : r.confidence = 0.95 := by
  rcases mem_recommendCharts h with hb | hl | hp | hs | ha
  · exact (mem_barCands hb).2.1
  · rw [(mem_lineCands hl).1] at ht; cases ht
  · rw [(mem_pieCands hp).1] at ht; cases ht
  · rw [(mem_scatterCands hs).1] at ht; cases ht
  · rw [(mem_areaCands ha).1] at ht; cases ht

/-- A scatter element of the recommendation list has confidence 0.8 or 0.6. -/
theorem scatter_mem_confidence {pd : ParsedData} {f : DataFeatures}
    {r : ChartRecommendation} (h : r ∈ recommendCharts pd f)
    (ht : r.chartType = ChartType.scatter) :
    r.confidence = 0.8 ∨ r.confidence = 0.6 := by
  rcases mem_recommendCharts h with hb | hl | hp | hs | ha
  · rw [(mem_barCands hb).1] at ht; cases ht
  · rw [(mem_lineCands hl).1] at ht; cases ht
  · rw [(mem_pieCands hp).1] at ht; cases ht
  · exact (mem_scatterCands hs).2.1
  · rw [(mem_areaCands ha).1] at ht; cases ht

/-- C6: recommendCharts returns its candidates sorted by confidence
descending (the sort is stable by construction), and every bar candidate
(confidence 0.95) is ranked strictly before every scatter candidate
(confidence at most 0.8). -/
theorem recommendation_priority_ordering (pd : ParsedData) (f : DataFeatures) :
    (recommendCharts pd f).Pairwise
      (fun a b => b.confidence ≤ a.confidence) ∧
    (∀ i j : Fin (recommendCharts pd f).length,
      ((recommendCharts pd f).get i).chartType = ChartType.bar →
      ((recommendCharts pd f).get j).chartType = ChartType.scatter →
      (i : Nat) < (j : Nat)) := by
  refine ⟨recommendCharts_sorted pd f, ?_⟩
  intro i j hib hjs
  by_contra hns
  have hji : (j : Nat) ≤ (i : Nat) := Nat.le_of_not_lt hns
  have hne : (j : Nat) ≠ (i : Nat) := by
    intro he
    have : (recommendCharts pd f).get j = (recommendCharts pd f).get i := by
      congr 1
      exact Fin.ext he
    rw [this, hib] at hjs
    cases hjs
  have hji2 : (j : Nat) < (i : Nat) := Nat.lt_of_le_of_ne hji hne
  have hpw := List.pairwise_iff_get.mp (recommendCharts_sorted pd f) j i hji2
  have hbc : ((recommendCharts pd f).get i).confidence = 0.95 :=
    bar_mem_confidence (List.get_mem _ _ _) hib
  have hsc := scatter_mem_confidence (List.get_mem _ _ _) hjs
  rw [hbc] at hpw
  rcases hsc with hs8 | hs6
  · rw [hs8] at hpw
    norm_num at hpw
  · rw [hs6] at hpw
    norm_num at hpw

/-- C6 witness: the twenty-row categorical table yields the ranked list
bar 0.95, scatter 0.8, line 0.75, and the theorem places the bar candidate
before the scatter candidate. -/
theorem recommendation_priority_ordering_witness :
    ((recommendCharts pdCatScatter (extractFeatures pdCatScatter)).map
      (fun r => (r.chartType, r.confidence)) =
      [(ChartType.bar, 0.95), (ChartType.scatter, 0.8), (ChartType.line, 0.75)]) ∧
    (0 : Nat) < 1 := by
  refine ⟨by decide, ?_⟩
  have h0 : (0 : Nat) < (recommendCharts pdCatScatter (extractFeatures pdCatScatter)).length := by
    decide
  have h1 : (1 : Nat) < (recommendCharts pdCatScatter (extractFeatures pdCatScatter)).length := by
    decide
  have hb : ((recommendCharts pdCatScatter (extractFeatures pdCatScatter)).get
      ⟨0, h0⟩).chartType = ChartType.bar := by
    have hq : ((recommendCharts pdCatScatter (extractFeatures pdCatScatter)).get? 0).map
        (fun r => r.chartType) = some ChartType.bar := by decide
    rw [List.get?_eq_get h0] at hq
    exact Option.some.inj hq
  have hs : ((recommendCharts pdCatScatter (extractFeatures pdCatScatter)).get
      ⟨1, h1⟩).chartType = ChartType.scatter := by
    have hq : ((recommendCharts pdCatScatter (extractFeatures pdCatScatter)).get? 1).map
        (fun r => r.chartType) = some ChartType.scatter := by decide
    rw [List.get?_eq_get h1] at hq
    exact Option.some.inj hq
  exact (recommendation_priority_ordering pdCatScatter (extractFeatures pdCatScatter)).2
    ⟨0, h0⟩ ⟨1, h1⟩ hb hs

/-- In a well-formed table an unknown column name reads as undefined. -/
theorem rowLookup_eq_none_of_not_mem {r : Row} {cols : List String} {x : String}
    (hb : ∀ p ∈ r, p.1 ∈ cols) (hx : x ∉ cols) : rowLookup r x = none := by
  unfold rowLookup
  have hf : r.find? (fun p => p.1 == x) = none := by
    rw [List.find?_eq_none]
    intro p hp hpx
    have : p.1 = x := by simpa using hpx
    exact hx (this ▸ hb p hp)
  rw [hf]
  rfl

theorem pieCountsAux_nil {x : String} {rows : List Row}
    (h : ∀ r ∈ rows, rowLookup r x = none) : pieCountsAux x [] rows = [] := by
  induction rows with
  | nil => rfl
  | cons r rs ih =>
    have hr : rowLookup r x = none := h r (List.mem_cons_self r rs)
    have hkey : pieKeyQ x r = none := by
      unfold pieKeyQ
      rw [hr]
      rfl
    unfold pieCountsAux
    rw [hkey]
    exact ih (fun r2 hr2 => h r2 (List.mem_cons_of_mem r hr2))

theorem pieData_nil {x : String} {rows : List Row}
    (h : ∀ r ∈ rows, rowLookup r x = none) : pieData x rows = [] := by
  unfold pieData pieCounts
  rw [pieCountsAux_nil h]
  rfl

theorem scatterLineData_nil {ct : ChartType} {x y : String} {rows : List Row}
    (h : ∀ r ∈ rows, rowLookup r x = none) : scatterLineData ct x y rows = [] := by
  unfold scatterLineData
  have hf : rows.filter (keepPair x y) = [] := by
    rw [List.filter_eq_nil]
    intro r hr
    unfold keepPair
    rw [h r hr]
    simp
  rw [hf]
  simp

/-- C3 amended: every axis bound by a recommendCharts candidate names a
table column (pie candidates bind no axes; the dataKey of a pie candidate
is the synthesized field name value, not a column); generateChart returns
null for pie, scatter and line requests whose supplied x axis is not a
table column; a bar request with an unknown axis instead aggregates every
row under the Unknown group (see the counterexample), and in the deployed
system the route layer rejects unknown axes before generateChart runs. -/
theorem axis_existence_amended :
    (∀ (pd : ParsedData) (f : DataFeatures) (r : ChartRecommendation),
      r ∈ recommendCharts pd f →
      (∀ c, r.xAxis = some c → c ∈ pd.columns) ∧
      (∀ c, r.yAxis = some c → c ∈ pd.columns)) ∧
    (∀ (pd : ParsedData) (ct : ChartType) (x : String) (y k : Option String)
      (now : Nat),
      (∀ r ∈ pd.rows, ∀ p ∈ r, p.1 ∈ pd.columns) →
      x ∉ pd.columns → x ≠ "" →
      (ct = ChartType.pie ∨ ct = ChartType.scatter ∨ ct = ChartType.line) →
      generateChart pd ct (some x) y k now = none) := by
  constructor
  · intro pd f r h
    rcases mem_recommendCharts h with hb | hl | hp | hs | ha
    · obtain ⟨_, _, c, v, hxa, hya, hcs, hvn, _⟩ := mem_barCands hb
      constructor
      · intro c2 hc2
        rw [hxa] at hc2
        cases hc2
        exact mem_stringColsOf hcs
      · intro c2 hc2
        rw [hya] at hc2
        cases hc2
        exact mem_numericColsOf hvn
    · exact ⟨(mem_lineCands hl).2.2.1, (mem_lineCands hl).2.2.2⟩
    · obtain ⟨_, _, hx, hy, _⟩ := mem_pieCands hp
      constructor
      · intro c2 hc2
        rw [hx] at hc2
        cases hc2
      · intro c2 hc2
        rw [hy] at hc2
        cases hc2
    · refine ⟨fun c2 hc2 => ?_, fun c2 hc2 => ?_⟩
      · exact mem_numericColsOf ((mem_scatterCands hs).2.2.1 c2 hc2)
      · exact mem_numericColsOf ((mem_scatterCands hs).2.2.2 c2 hc2)
    · exact ⟨(mem_areaCands ha).2.2.1, (mem_areaCands ha).2.2.2⟩
  · intro pd ct x y k now hwf hx hx0 hct
    have hlook : ∀ r ∈ pd.rows, rowLookup r x = none :=
      fun r hr => rowLookup_eq_none_of_not_mem (hwf r hr) hx
    have hfx : jsFalsyS (some x) = false := by
      simp [jsFalsyS, hx0]
    rcases hct with rfl | rfl | rfl
    · have hdata : pieData x pd.rows = [] := pieData_nil hlook
      simp [generateChart, generateChartStep, hfx, hdata]
    · rcases hfy : (if jsFalsyS y = true then defaultScatterY pd (some x) else y) with _ | ys
      · have hfyt : jsFalsyS (if jsFalsyS y = true then defaultScatterY pd (some x) else y) =
            true := by rw [hfy]; rfl
        simp [generateChart, generateChartStep, hfx, hfyt]
      · by_cases hys : ys = ""
        · have hfyt : jsFalsyS (if jsFalsyS y = true then defaultScatterY pd (some x) else y) =
              true := by rw [hfy, hys]; rfl
          simp [generateChart, generateChartStep, hfx, hfyt]
        · have hfys : jsFalsyS (some ys) = false := by simp [jsFalsyS, hys]
          have hdata : scatterLineData ChartType.scatter x ys pd.rows = [] :=
            scatterLineData_nil hlook
          simp [generateChart, generateChartStep, hfx, hfy, hfys, hdata]
    · rcases hfy : (if jsFalsyS y = true then defaultScatterY pd (some x) else y) with _ | ys
      · have hfyt : jsFalsyS (if jsFalsyS y = true then defaultScatterY pd (some x) else y) =
            true := by rw [hfy]; rfl
        simp [generateChart, generateChartStep, hfx, hfyt]
      · by_cases hys : ys = ""
        · have hfyt : jsFalsyS (if jsFalsyS y = true then defaultScatterY pd (some x) else y) =
              true := by rw [hfy, hys]; rfl
          simp [generateChart, generateChartStep, hfx, hfyt]
        · have hfys : jsFalsyS (some ys) = false := by simp [jsFalsyS, hys]
          have hdata : scatterLineData ChartType.line x ys pd.rows = [] :=
            scatterLineData_nil hlook
          simp [generateChart, generateChartStep, hfx, hfy, hfys, hdata]

/-- C3 witness: the axis bound by the bar candidate of the placeholder
table is a table column, and a pie request for a column absent from the
one-numeric-column table returns null. -/
theorem axis_existence_amended_witness :
    "cat" ∈ pdPlaceholder.columns ∧
    generateChart pdOneNum ChartType.pie (some "zzz") none none 0 = none := by
  constructor
  · have h0 : 0 < (recommendCharts pdPlaceholder (extractFeatures pdPlaceholder)).length := by
      decide
    have hmem := List.get_mem (recommendCharts pdPlaceholder (extractFeatures pdPlaceholder)) 0 h0
    have hx : ((recommendCharts pdPlaceholder (extractFeatures pdPlaceholder)).get
        ⟨0, h0⟩).xAxis = some "cat" := by
      have hq : ((recommendCharts pdPlaceholder (extractFeatures pdPlaceholder)).get? 0).map
          (fun r => r.xAxis) = some (some "cat") := by decide
      rw [List.get?_eq_get h0] at hq
      exact Option.some.inj hq
    exact (axis_existence_amended.1 pdPlaceholder (extractFeatures pdPlaceholder) _ hmem).1
      "cat" hx
  · refine axis_existence_amended.2 pdOneNum ChartType.pie "zzz" none none 0
      (by decide) (by decide) (by decide) (Or.inl rfl)

/-- C4 amended: an emitted bar candidate never has an identifier-like or
placeholder-named category column, and never an identifier-like value
column; its value column is also not placeholder-named provided some
numeric column is free of the placeholder patterns (and no numeric column
has an empty name) — when every numeric column is placeholder-named the
rule falls back to the first numeric column and emits its placeholder name
(see the counterexample). -/
theorem bar_candidate_rejection_amended (pd : ParsedData) (f : DataFeatures)
    (r : ChartRecommendation) (h : r ∈ recommendCharts pd f)
    (ht : r.chartType = ChartType.bar) (c v : String)
    (hx : r.xAxis = some c) (hy : r.yAxis = some v) :
    isIdentifierColumn c = false ∧ notPlaceholder c = true ∧
    isIdentifierColumn v = false ∧
    ((∀ n ∈ numericColsOf pd, n ≠ "") →
      (∃ n ∈ numericColsOf pd, notPlaceholder n = true) →
      notPlaceholder v = true) := by
  rcases mem_recommendCharts h with hb | hl | hp | hs | ha
  · obtain ⟨_, _, c2, v2, hx2, hy2, _, _, hic, hiv, hpc, _, _, himp⟩ := mem_barCands hb
    rw [hx2] at hx
    rw [hy2] at hy
    cases hx
    cases hy
    exact ⟨hic, hpc, hiv, himp⟩
  · rw [(mem_lineCands hl).1] at ht; cases ht
  · rw [(mem_pieCands hp).1] at ht; cases ht
  · rw [(mem_scatterCands hs).1] at ht; cases ht
  · rw [(mem_areaCands ha).1] at ht; cases ht

/-- C4 witness: on the twenty-row table the emitted bar candidate binds
cat and x, and the theorem yields that they pass the identifier and
placeholder checks. -/
theorem bar_candidate_rejection_amended_witness :
    isIdentifierColumn "cat" = false ∧ notPlaceholder "cat" = true ∧
    isIdentifierColumn "x" = false ∧ notPlaceholder "x" = true := by
  have h0 : 0 < (recommendCharts pdCatScatter (extractFeatures pdCatScatter)).length := by
    decide
  have hmem := List.get_mem (recommendCharts pdCatScatter (extractFeatures pdCatScatter)) 0 h0
  have hb : ((recommendCharts pdCatScatter (extractFeatures pdCatScatter)).get
      ⟨0, h0⟩).chartType = ChartType.bar := by
    have hq : ((recommendCharts pdCatScatter (extractFeatures pdCatScatter)).get? 0).map
        (fun r => r.chartType) = some ChartType.bar := by decide
    rw [List.get?_eq_get h0] at hq
    exact Option.some.inj hq
  have hxa : ((recommendCharts pdCatScatter (extractFeatures pdCatScatter)).get
      ⟨0, h0⟩).xAxis = some "cat" := by
    have hq : ((recommendCharts pdCatScatter (extractFeatures pdCatScatter)).get? 0).map
        (fun r => r.xAxis) = some (some "cat") := by decide
    rw [List.get?_eq_get h0] at hq
    exact Option.some.inj hq
  have hya : ((recommendCharts pdCatScatter (extractFeatures pdCatScatter)).get
      ⟨0, h0⟩).yAxis = some "x" := by
    have hq : ((recommendCharts pdCatScatter (extractFeatures pdCatScatter)).get? 0).map
        (fun r => r.yAxis) = some (some "x") := by decide
    rw [List.get?_eq_get h0] at hq
    exact Option.some.inj hq
  obtain ⟨hic, hpc, hiv, himp⟩ := bar_candidate_rejection_amended pdCatScatter
    (extractFeatures pdCatScatter) _ hmem hb "cat" "x" hxa hya
  exact ⟨hic, hpc, hiv, himp (by decide) ⟨"x", by decide, by decide⟩⟩

/-- C2 amended: extractFeatures and recommendCharts are pure functions of
the table, and generateChart is deterministic in every field except id:
two calls at different timestamps agree after erasing id, and the id is
exactly the chart-type name joined to the timestamp. -/
theorem core_determinism_up_to_id (pd : ParsedData) (ct : ChartType)
    (x y k : Option String) (n1 n2 : Nat) :
    (generateChart pd ct x y k n1).map eraseId =
      (generateChart pd ct x y k n2).map eraseId ∧
    (∀ cfg, generateChart pd ct x y k n1 = some cfg →
      cfg.id = chartTypeName ct ++ "-" ++ toString n1) := by
  constructor
  · unfold generateChart
    cases hstep : generateChartStep pd ct x y k with
    | none => rfl
    | some v =>
      obtain ⟨d, t, fx, fy, fk⟩ := v
      by_cases hd : d.isEmpty
      · simp [hd]
      · simp [hd, eraseId]
  · intro cfg hc
    unfold generateChart at hc
    cases hstep : generateChartStep pd ct x y k with
    | none =>
      rw [hstep] at hc
      cases hc
    | some v =>
      obtain ⟨d, t, fx, fy, fk⟩ := v
      rw [hstep] at hc
      by_cases hd : d.isEmpty
      · simp [hd] at hc
      · simp [hd] at hc
        rw [← hc]

/-- C2 witness: on the concrete bar table the timestamped results agree
after erasing id, and the id at time 0 is bar-0. -/
theorem core_determinism_up_to_id_witness :
    (generateChart pdAB ChartType.bar (some "cat") (some "val") none 0).map eraseId =
      (generateChart pdAB ChartType.bar (some "cat") (some "val") none 1).map eraseId ∧
    (generateChart pdAB ChartType.bar (some "cat") (some "val") none 0).map
      (fun cfg => cfg.id) = some "bar-0" := by
  constructor
  · exact (core_determinism_up_to_id pdAB ChartType.bar (some "cat") (some "val") none 0 1).1
  · have hsome : (generateChart pdAB ChartType.bar (some "cat") (some "val") none 0).isSome := by
      decide
    obtain ⟨cfg, hcfg⟩ := Option.isSome_iff_exists.mp hsome
    have hid := (core_determinism_up_to_id pdAB ChartType.bar (some "cat") (some "val")
      none 0 1).2 cfg hcfg
    rw [hcfg]
    show some cfg.id = some "bar-0"
    rw [hid]
    rfl

/-- C9: generateChart returns null rather than a payload whenever the
shaped data set is empty (a returned payload always has nonempty data),
and a bar request with no axes on a table having no string columns
resolves no x axis and returns null. -/
theorem generateChart_failure_policy :
    (∀ (pd : ParsedData) (ct : ChartType) (x y k : Option String) (now : Nat)
      (cfg : ChartConfig),
      generateChart pd ct x y k now = some cfg → cfg.data ≠ []) ∧
    (∀ (pd : ParsedData) (k : Option String) (now : Nat),
      stringColsOf pd = [] →
      generateChart pd ChartType.bar none none k now = none) := by
  constructor
  · intro pd ct x y k now cfg hc
    unfold generateChart at hc
    cases hstep : generateChartStep pd ct x y k with
    | none =>
      rw [hstep] at hc
      cases hc
    | some v =>
      obtain ⟨d, t, fx, fy, fk⟩ := v
      rw [hstep] at hc
      by_cases hd : d.isEmpty
      · simp [hd] at hc
      · simp [hd] at hc
        rw [← hc]
        simpa using hd
  · intro pd k now h
    have hdef : defaultStringAxis pd = none := by
      simp [defaultStringAxis, goodStringColsOf, h, jsOrS, jsFalsyS]
    simp [generateChart, generateChartStep, hdef, jsFalsyS]

/-- C9 witness: the bar payload of the concrete table has nonempty data,
and the string-column-free table returns null. -/
theorem generateChart_failure_policy_witness :
    (generateChart pdAB ChartType.bar (some "cat") (some "val") none 0).map
      (fun cfg => cfg.data) ≠ some [] ∧
    generateChart pdOneNum ChartType.bar none none none 0 = none := by
  constructor
  · intro hmap
    have hsome : (generateChart pdAB ChartType.bar (some "cat") (some "val") none 0).isSome := by
      decide
    obtain ⟨cfg, hcfg⟩ := Option.isSome_iff_exists.mp hsome
    have hne := generateChart_failure_policy.1 pdAB ChartType.bar (some "cat") (some "val")
      none 0 cfg hcfg
    rw [hcfg] at hmap
    have hdata : cfg.data = [] := by simpa using hmap
    exact hne hdata
  · exact generateChart_failure_policy.2 pdOneNum none 0 (by decide)

/-- C8: for scatter and line with caller-supplied axes, the payload rows
are exactly the rows whose two axis values are defined, non-null and
numeric-coercible, coerced to numbers, capped at 200 (scatter) or 100
(line) in original row order; the request yields null exactly when that
filtered, capped list is empty. -/
theorem scatter_line_row_cap (pd : ParsedData) (ct : ChartType) (x y : String)
    (k : Option String) (now : Nat)
    (hct : ct = ChartType.scatter ∨ ct = ChartType.line)
    (hx : x ≠ "") (hy : y ≠ "") :
    (generateChart pd ct (some x) (some y) k now = none ↔
      ((pd.rows.filter (keepPair x y)).map (coercePair x y)).take
        (if ct = ChartType.scatter then 200 else 100) = []) ∧
    (∀ cfg, generateChart pd ct (some x) (some y) k now = some cfg →
      cfg.data = ((pd.rows.filter (keepPair x y)).map (coercePair x y)).take
        (if ct = ChartType.scatter then 200 else 100) ∧
      cfg.data.length = min (if ct = ChartType.scatter then 200 else 100)
        (pd.rows.filter (keepPair x y)).length) := by
  have hfx : jsFalsyS (some x) = false := by simp [jsFalsyS, hx]
  have hfy : jsFalsyS (some y) = false := by simp [jsFalsyS, hy]
  have hstep : generateChartStep pd ct (some x) (some y) k =
      some (scatterLineData ct x y pd.rows,
        (if ct = ChartType.scatter then y ++ " vs " ++ x else y ++ " over " ++ x),
        some x, some y, k) := by
    rcases hct with rfl | rfl
    · simp [generateChartStep, hfx, hfy]
    · simp [generateChartStep, hfx, hfy]
  have hdata : scatterLineData ct x y pd.rows =
      ((pd.rows.filter (keepPair x y)).map (coercePair x y)).take
        (if ct = ChartType.scatter then 200 else 100) := rfl
  constructor
  · constructor
    · intro hnone
      unfold generateChart at hnone
      rw [hstep] at hnone
      by_cases hd : (scatterLineData ct x y pd.rows).isEmpty
      · rw [← hdata]
        exact List.isEmpty_iff.mp hd
      · simp [hd] at hnone
    · intro hnil
      unfold generateChart
      rw [hstep]
      have hd : (scatterLineData ct x y pd.rows).isEmpty := by
        rw [hdata, hnil]
        rfl
      simp [hd]
  · intro cfg hc
    unfold generateChart at hc
    rw [hstep] at hc
    by_cases hd : (scatterLineData ct x y pd.rows).isEmpty
    · simp [hd] at hc
    · simp [hd] at hc
      have hcd : cfg.data = scatterLineData ct x y pd.rows := by
        rw [← hc]
      constructor
      · rw [hcd, hdata]
      · rw [hcd, hdata, List.length_take, List.length_map]

set_option maxRecDepth 4000 in
/-- C8 witness: 500 valid numeric-pair rows yield exactly 200 scatter rows
and 100 line rows. -/
theorem scatter_line_row_cap_witness :
    (generateChart pd500 ChartType.scatter (some "x") (some "y") none 0).map
      (fun cfg => cfg.data.length) = some 200 ∧
    (generateChart pd500 ChartType.line (some "x") (some "y") none 0).map
      (fun cfg => cfg.data.length) = some 100 := by
  have hflen : (pd500.rows.filter (keepPair "x" "y")).length = 500 := by decide
  constructor
  · have hsome : (generateChart pd500 ChartType.scatter (some "x") (some "y") none 0).isSome := by
      decide
    obtain ⟨cfg, hcfg⟩ := Option.isSome_iff_exists.mp hsome
    have hlen := ((scatter_line_row_cap pd500 ChartType.scatter "x" "y" none 0
      (Or.inl rfl) (by decide) (by decide)).2 cfg hcfg).2
    rw [hcfg]
    show some cfg.data.length = some 200
    rw [hlen, hflen]
    decide
  · have hsome : (generateChart pd500 ChartType.line (some "x") (some "y") none 0).isSome := by
      decide
    obtain ⟨cfg, hcfg⟩ := Option.isSome_iff_exists.mp hsome
    have hlen := ((scatter_line_row_cap pd500 ChartType.line "x" "y" none 0
      (Or.inr rfl) (by decide) (by decide)).2 cfg hcfg).2
    rw [hcfg]
    show some cfg.data.length = some 100
    rw [hlen, hflen]
    decide

theorem objLookup_cons {α : Type} {k2 : String} {v2 : α} {l : List (String × α)}
    {c : String} :
    objLookup ((k2, v2) :: l) c = if k2 = c then some v2 else objLookup l c := by
  by_cases h : k2 = c
  · subst h
    simp [objLookup, List.find?_cons_of_pos]
  · have hf : (k2 == c) = false := by simpa using h
    simp [objLookup, List.find?, hf, h]

/-- The values collected into one bar group: the Number-coerced y values of
the rows whose bar key is the given category, in row order. -/
def barGroupVals (x y c : String) (rows : List Row) : List ℚ :=
  (rows.filter (fun r => barKey r x = c)).map (fun r => numOr0 (rowLookup r y))

theorem objLookup_addToGroup {l : List (String × List ℚ)} {k c : String} {v : ℚ} :
    objLookup (addToGroup l k v) c =
      if k = c then some ((objLookup l c).getD [] ++ [v]) else objLookup l c := by
  induction l with
  | nil =>
    by_cases h : k = c
    · subst h
      simp [addToGroup, objLookup_cons]
      rfl
    · simp [addToGroup, objLookup_cons, h, objLookup]
  | cons p ps ih =>
    obtain ⟨k2, vs⟩ := p
    by_cases h2 : k2 = k
    · subst h2
      by_cases hc : k2 = c
      · subst hc
        simp [addToGroup, objLookup_cons]
      · simp [addToGroup, objLookup_cons, hc]
    · by_cases hc : k2 = c
      · subst hc
        have hkc : ¬ k = k2 := fun he => h2 he.symm
        simp [addToGroup, h2, objLookup_cons, hkc]
      · simp [addToGroup, h2, objLookup_cons, hc, ih]

theorem barGroupsAux_lookup (x y : String) (rows : List Row) :
    ∀ (acc : List (String × List ℚ)) (c : String),
    objLookup (barGroupsAux x y acc rows) c =
      match objLookup acc c with
      | some vs => some (vs ++ barGroupVals x y c rows)
      | none => if barGroupVals x y c rows = [] then none
                else some (barGroupVals x y c rows) := by
  induction rows with
  | nil =>
    intro acc c
    unfold barGroupsAux barGroupVals
    cases objLookup acc c <;> simp
  | cons r rs ih =>
    intro acc c
    unfold barGroupsAux
    rw [ih]
    by_cases hk : barKey r x = c
    · have hvals : barGroupVals x y c (r :: rs) =
          numOr0 (rowLookup r y) :: barGroupVals x y c rs := by
        unfold barGroupVals
        rw [List.filter_cons_of_pos (by simpa using hk)]
        rfl
      rw [objLookup_addToGroup, if_pos hk, hvals]
      cases hacc : objLookup acc c with
      | some vs => simp [hacc, List.append_assoc]
      | none => simp [hacc]
    · have hvals : barGroupVals x y c (r :: rs) = barGroupVals x y c rs := by
        unfold barGroupVals
        rw [List.filter_cons_of_neg (by simpa using hk)]
      rw [objLookup_addToGroup, if_neg hk, hvals]

theorem keys_addToGroup {l : List (String × List ℚ)} {k : String} {v : ℚ} :
    (addToGroup l k v).map Prod.fst =
      if k ∈ l.map Prod.fst then l.map Prod.fst else l.map Prod.fst ++ [k] := by
  induction l with
  | nil => simp [addToGroup]
  | cons p ps ih =>
    obtain ⟨k2, vs⟩ := p
    by_cases h2 : k2 = k
    · subst h2
      simp [addToGroup]
    · have hne : ¬ k = k2 := fun he => h2 he.symm
      simp only [addToGroup, if_neg h2, List.map_cons, List.mem_cons, hne, false_or]
      rw [ih]
      by_cases hmem : k ∈ ps.map Prod.fst
      · simp [hmem]
      · simp [hmem]

theorem nodup_keys_addToGroup {l : List (String × List ℚ)} {k : String} {v : ℚ}
    (h : (l.map Prod.fst).Nodup) : ((addToGroup l k v).map Prod.fst).Nodup := by
  rw [keys_addToGroup]
  by_cases hmem : k ∈ l.map Prod.fst
  · simpa [hmem] using h
  · simp only [hmem, if_false]
    rw [List.nodup_append]
    exact ⟨h, List.nodup_singleton k, by simpa using hmem⟩

theorem nodup_keys_barGroupsAux (x y : String) (rows : List Row) :
    ∀ acc, ((acc : List (String × List ℚ)).map Prod.fst).Nodup →
    ((barGroupsAux x y acc rows).map Prod.fst).Nodup := by
  induction rows with
  | nil => intro acc h; exact h
  | cons r rs ih =>
    intro acc h
    exact ih _ (nodup_keys_addToGroup h)

theorem mem_jsEntries {α : Type} {l : List (String × α)} {p : String × α} :
    p ∈ jsEntries l ↔ p ∈ l := by
  unfold jsEntries
  rw [List.mem_append, mem_sortByLe, List.mem_filter, List.mem_filter]
  by_cases hA : isArrayIdxKey p.1 <;> simp [hA]

theorem length_jsEntries {α : Type} (l : List (String × α)) :
    (jsEntries l).length = l.length := by
  unfold jsEntries
  rw [List.length_append, length_sortByLe]
  induction l with
  | nil => rfl
  | cons a as ih =>
    by_cases h : isArrayIdxKey a.1 <;>
      simp only [List.filter_cons, h, decide_not] at ih ⊢ <;>
      simp [h] at ih ⊢ <;> omega

/-- The groups of one bar aggregation, with the characterization of every
member entry. -/
theorem barGroups_lookup (x y : String) (rows : List Row) (c : String) :
    objLookup (barGroups x y rows) c =
      if barGroupVals x y c rows = [] then none
      else some (barGroupVals x y c rows) := by
  unfold barGroups
  rw [barGroupsAux_lookup]
  rfl

theorem mem_barGroups {x y c : String} {vs : List ℚ} {rows : List Row}
    (h : (c, vs) ∈ barGroups x y rows) :
    vs = barGroupVals x y c rows ∧ barGroupVals x y c rows ≠ [] := by
  have hnodup : ((barGroups x y rows).map Prod.fst).Nodup :=
    nodup_keys_barGroupsAux x y rows [] (by simp)
  have hlook : objLookup (barGroups x y rows) c = some vs :=
    objLookup_eq_some_of_mem hnodup h
  rw [barGroups_lookup] at hlook
  by_cases hnil : barGroupVals x y c rows = []
  · rw [if_pos hnil] at hlook
    cases hlook
  · rw [if_neg hnil] at hlook
    exact ⟨(Option.some.inj hlook).symm, hnil⟩

/-- C5 amended: bar materialization with distinct supplied axes groups rows
by the JS-truthiness key (the trimmed String of a truthy x value, Unknown
for any falsy one), emits one record per group holding the mean of the
Number-coerced y values (non-coercible values count 0), caps the output at
20 groups (enumerated in JS object key order: canonical integer-string
keys ascending first, then first-seen order), and on the concrete spec
example yields exactly the two records A 15 and B 5. -/
theorem bar_materialization_amended (pd : ParsedData) (x y : String)
    (k : Option String) (now : Nat) (hx : x ≠ "") (hy : y ≠ "") (hxy : x ≠ y) :
    (∀ cfg, generateChart pd ChartType.bar (some x) (some y) k now = some cfg →
      cfg.data.length ≤ 20 ∧
      ∀ d ∈ cfg.data, ∃ c,
        d = [(x, JsValue.strV c), (y, JsValue.numV (meanQ (barGroupVals x y c pd.rows)))] ∧
        barGroupVals x y c pd.rows ≠ []) ∧
    ((generateChart pdAB ChartType.bar (some "cat") (some "val") none 0).map
      (fun c => c.data) =
      some [[("cat", JsValue.strV "A"), ("val", JsValue.numV 15)],
            [("cat", JsValue.strV "B"), ("val", JsValue.numV 5)]]) := by
  have hfx : jsFalsyS (some x) = false := by simp [jsFalsyS, hx]
  have hfy : jsFalsyS (some y) = false := by simp [jsFalsyS, hy]
  have hstep : generateChartStep pd ChartType.bar (some x) (some y) k =
      some (barData x y pd.rows, y ++ " by " ++ x, some x, some y, k) := by
    simp [generateChartStep, hfx, hfy]
  constructor
  · intro cfg hc
    unfold generateChart at hc
    rw [hstep] at hc
    by_cases hd : (barData x y pd.rows).isEmpty
    · simp [hd] at hc
    · simp [hd] at hc
      have hcd : cfg.data = barData x y pd.rows := by rw [← hc]
      constructor
      · rw [hcd]
        unfold barData
        exact List.length_take_le 20 _
      · intro d hd2
        rw [hcd] at hd2
        unfold barData at hd2
        have hd3 := List.mem_of_mem_take hd2
        obtain ⟨p, hp, hpd⟩ := List.mem_map.mp hd3
        obtain ⟨c0, vs⟩ := p
        have hpg := mem_jsEntries.mp hp
        obtain ⟨hvs, hne⟩ := mem_barGroups hpg
        refine ⟨c0, ?_, hne⟩
        rw [← hpd]
        simp only [hvs]
        simp [objSet, hxy]
  · decide

set_option maxRecDepth 2000 in
/-- C5 witness: on the spec example the payload is A 15, B 5 with at most
20 groups. -/
theorem bar_materialization_amended_witness :
    ((generateChart pdAB ChartType.bar (some "cat") (some "val") none 0).map
      (fun c => c.data) =
      some [[("cat", JsValue.strV "A"), ("val", JsValue.numV 15)],
            [("cat", JsValue.strV "B"), ("val", JsValue.numV 5)]]) ∧
    ((generateChart pdAB ChartType.bar (some "cat") (some "val") none 0).map
      (fun c => c.data.length)).getD 21 ≤ 20 := by
  have hthm := bar_materialization_amended pdAB "cat" "val" none 0
    (by decide) (by decide) (by decide)
  refine ⟨hthm.2, ?_⟩
  have hsome : (generateChart pdAB ChartType.bar (some "cat") (some "val") none 0).isSome := by
    decide
  obtain ⟨cfg, hcfg⟩ := Option.isSome_iff_exists.mp hsome
  have hlen := (hthm.1 cfg hcfg).1
  rw [hcfg]
  simpa using hlen

/-- The number of rows counted under one pie slice. -/
def pieCountOf (x c : String) (rows : List Row) : Nat :=
  (rows.filter (fun r => pieKeyQ x r = some c)).length

theorem objLookup_bumpCount {l : List (String × Nat)} {k c : String} :
    objLookup (bumpCount l k) c =
      if k = c then some ((objLookup l c).getD 0 + 1) else objLookup l c := by
  induction l with
  | nil =>
    by_cases h : k = c
    · subst h
      simp [bumpCount, objLookup_cons]
      rfl
    · simp [bumpCount, objLookup_cons, h, objLookup]
  | cons p ps ih =>
    obtain ⟨k2, n⟩ := p
    by_cases h2 : k2 = k
    · subst h2
      by_cases hc : k2 = c
      · subst hc
        simp [bumpCount, objLookup_cons]
      · simp [bumpCount, objLookup_cons, hc]
    · by_cases hc : k2 = c
      · subst hc
        have hkc : ¬ k = k2 := fun he => h2 he.symm
        simp [bumpCount, h2, objLookup_cons, hkc]
      · simp [bumpCount, h2, objLookup_cons, hc, ih]

theorem pieCountsAux_lookup (x : String) (rows : List Row) :
    ∀ (acc : List (String × Nat)) (c : String),
    objLookup (pieCountsAux x acc rows) c =
      match objLookup acc c with
      | some n => some (n + pieCountOf x c rows)
      | none => if pieCountOf x c rows = 0 then none
                else some (pieCountOf x c rows) := by
  induction rows with
  | nil =>
    intro acc c
    unfold pieCountsAux pieCountOf
    cases objLookup acc c <;> simp
  | cons r rs ih =>
    intro acc c
    unfold pieCountsAux
    cases hkey : pieKeyQ x r with
    | none =>
      rw [ih]
      have hcnt : pieCountOf x c (r :: rs) = pieCountOf x c rs := by
        unfold pieCountOf
        rw [List.filter_cons_of_neg (by simp [hkey])]
      rw [hcnt]
    | some kr =>
      rw [ih]
      by_cases hk : kr = c
      · subst hk
        have hcnt : pieCountOf x kr (r :: rs) = pieCountOf x kr rs + 1 := by
          unfold pieCountOf
          rw [List.filter_cons_of_pos (by simp [hkey])]
          simp [Nat.add_comm]
        rw [objLookup_bumpCount, if_pos rfl, hcnt]
        cases hacc : objLookup acc kr with
        | some n => simp [hacc]; omega
        | none => simp [hacc]; omega
      · have hcnt : pieCountOf x c (r :: rs) = pieCountOf x c rs := by
          unfold pieCountOf
          rw [List.filter_cons_of_neg (by simp [hkey, hk])]
        rw [objLookup_bumpCount, if_neg hk, hcnt]

theorem keys_bumpCount {l : List (String × Nat)} {k : String} :
    (bumpCount l k).map Prod.fst =
      if k ∈ l.map Prod.fst then l.map Prod.fst else l.map Prod.fst ++ [k] := by
  induction l with
  | nil => simp [bumpCount]
  | cons p ps ih =>
    obtain ⟨k2, n⟩ := p
    by_cases h2 : k2 = k
    · subst h2
      simp [bumpCount]
    · have hne : ¬ k = k2 := fun he => h2 he.symm
      simp only [bumpCount, if_neg h2, List.map_cons, List.mem_cons, hne, false_or]
      rw [ih]
      by_cases hmem : k ∈ ps.map Prod.fst
      · simp [hmem]
      · simp [hmem]

theorem nodup_keys_bumpCount {l : List (String × Nat)} {k : String}
    (h : (l.map Prod.fst).Nodup) : ((bumpCount l k).map Prod.fst).Nodup := by
  rw [keys_bumpCount]
  by_cases hmem : k ∈ l.map Prod.fst
  · simpa [hmem] using h
  · simp only [hmem, if_false]
    rw [List.nodup_append]
    exact ⟨h, List.nodup_singleton k, by simpa using hmem⟩

theorem mem_keys_bumpCount {l : List (String × Nat)} {k kr : String} :
    k ∈ (bumpCount l kr).map Prod.fst ↔ k ∈ l.map Prod.fst ∨ k = kr := by
  rw [keys_bumpCount]
  by_cases hmem : kr ∈ l.map Prod.fst
  · rw [if_pos hmem]
    constructor
    · exact Or.inl
    · rintro (h | rfl)
      · exact h
      · exact hmem
  · rw [if_neg hmem]
    simp [List.mem_append]

theorem nodup_keys_pieCountsAux (x : String) (rows : List Row) :
    ∀ acc, ((acc : List (String × Nat)).map Prod.fst).Nodup →
    ((pieCountsAux x acc rows).map Prod.fst).Nodup := by
  induction rows with
  | nil => intro acc h; exact h
  | cons r rs ih =>
    intro acc h
    unfold pieCountsAux
    cases pieKeyQ x r with
    | none => exact ih acc h
    | some kr => exact ih _ (nodup_keys_bumpCount h)

theorem mem_keys_pieCountsAux (x : String) (rows : List Row) :
    ∀ (acc : List (String × Nat)) (k : String),
    k ∈ (pieCountsAux x acc rows).map Prod.fst ↔
      k ∈ acc.map Prod.fst ∨ k ∈ rows.filterMap (pieKeyQ x) := by
  induction rows with
  | nil =>
    intro acc k
    simp [pieCountsAux]
  | cons r rs ih =>
    intro acc k
    unfold pieCountsAux
    cases hkey : pieKeyQ x r with
    | none =>
      rw [ih]
      simp [List.filterMap_cons, hkey]
    | some kr =>
      rw [ih, mem_keys_bumpCount]
      simp only [List.filterMap_cons, hkey, List.mem_cons]
      tauto

theorem length_pieCounts (x : String) (rows : List Row) :
    (pieCounts x rows).length = ((rows.filterMap (pieKeyQ x)).dedup).length := by
  have h1 : ((pieCounts x rows).map Prod.fst).Nodup :=
    nodup_keys_pieCountsAux x rows [] (by simp)
  have h2 : ((rows.filterMap (pieKeyQ x)).dedup).Nodup := List.nodup_dedup _
  have hmem : ∀ k, k ∈ (pieCounts x rows).map Prod.fst ↔
      k ∈ (rows.filterMap (pieKeyQ x)).dedup := by
    intro k
    rw [List.mem_dedup]
    unfold pieCounts
    rw [mem_keys_pieCountsAux]
    simp
  have hperm := (List.perm_ext_iff_of_nodup h1 h2).mpr hmem
  have hlen := hperm.length_eq
  rw [List.length_map] at hlen
  exact hlen

theorem pieCounts_lookup (x : String) (rows : List Row) (c : String) :
    objLookup (pieCounts x rows) c =
      if pieCountOf x c rows = 0 then none else some (pieCountOf x c rows) := by
  unfold pieCounts
  rw [pieCountsAux_lookup]
  rfl

theorem mem_pieCounts {x c : String} {n : Nat} {rows : List Row}
    (h : (c, n) ∈ pieCounts x rows) :
    n = pieCountOf x c rows ∧ 1 ≤ n := by
  have hnodup : ((pieCounts x rows).map Prod.fst).Nodup :=
    nodup_keys_pieCountsAux x rows [] (by simp)
  have hlook : objLookup (pieCounts x rows) c = some n :=
    objLookup_eq_some_of_mem hnodup h
  rw [pieCounts_lookup] at hlook
  by_cases hz : pieCountOf x c rows = 0
  · rw [if_pos hz] at hlook
    cases hlook
  · rw [if_neg hz] at hlook
    have hn := (Option.some.inj hlook).symm
    exact ⟨hn, by omega⟩

/-- The count value carried by a pie datum record. -/
def pieDatumVal (d : Row) : ℚ :=
  match objLookup d "value" with
  | some (JsValue.numV q) => q
  | _ => 0

theorem pieDatumVal_mk (c : String) (n : Nat) :
    pieDatumVal [("name", JsValue.strV c), ("value", JsValue.numV (n : ℚ))] = (n : ℚ) := by
  unfold pieDatumVal
  rw [objLookup_cons, if_neg (by decide), objLookup_cons, if_pos rfl]

/-- C7: pie materialization counts the occurrences of each nonempty,
non-Unknown x value, emits name/value records sorted descending by count,
and caps the output at the 15 highest counts: the payload length is the
minimum of 15 and the number of distinct qualifying values. -/
theorem pie_materialization_top15 (pd : ParsedData) (x : String)
    (y k : Option String) (now : Nat) (hx : x ≠ "") :
    ∀ cfg, generateChart pd ChartType.pie (some x) y k now = some cfg →
      cfg.data.length = min 15 ((pd.rows.filterMap (pieKeyQ x)).dedup).length ∧
      cfg.data.Pairwise (fun a b => pieDatumVal b ≤ pieDatumVal a) ∧
      (∀ d ∈ cfg.data, ∃ (c : String) (n : ℕ),
        d = [("name", JsValue.strV c), ("value", JsValue.numV (n : ℚ))] ∧
        n = pieCountOf x c pd.rows ∧ 1 ≤ n) := by
  intro cfg hc
  have hfx : jsFalsyS (some x) = false := by simp [jsFalsyS, hx]
  have hstep : generateChartStep pd ChartType.pie (some x) y k =
      some (pieData x pd.rows, "Distribution of " ++ x, some x, y, some "value") := by
    simp [generateChartStep, hfx]
  unfold generateChart at hc
  rw [hstep] at hc
  by_cases hd : (pieData x pd.rows).isEmpty
  · simp [hd] at hc
  · simp [hd] at hc
    have hcd : cfg.data = pieData x pd.rows := by rw [← hc]
    have hsorted0 := @pairwise_sortByLe (String × Nat)
      (fun a b => decide ((b.2 : ℚ) ≤ (a.2 : ℚ)))
      (fun a b => by
        rcases le_total (b.2 : ℚ) (a.2 : ℚ) with h | h
        · exact Or.inl (decide_eq_true h)
        · exact Or.inr (decide_eq_true h))
      (fun a b c h1 h2 => decide_eq_true
        (le_trans (of_decide_eq_true h2) (of_decide_eq_true h1)))
      (jsEntries (pieCounts x pd.rows))
    refine ⟨?_, ?_, ?_⟩
    · rw [hcd]
      unfold pieData
      rw [List.length_take, List.length_map, length_sortByLe, length_jsEntries,
        length_pieCounts]
    · rw [hcd]
      unfold pieData
      have hmapped : ((sortByLe (fun a b : String × Nat => decide ((b.2 : ℚ) ≤ (a.2 : ℚ)))
          (jsEntries (pieCounts x pd.rows))).map
          (fun p => [("name", JsValue.strV p.1), ("value", JsValue.numV (p.2 : ℚ))])).Pairwise
          (fun a b => pieDatumVal b ≤ pieDatumVal a) := by
        refine List.Pairwise.map _ ?_ hsorted0
        intro a b hab
        rw [pieDatumVal_mk, pieDatumVal_mk]
        exact of_decide_eq_true hab
      exact hmapped.sublist (List.take_sublist _ _)
    · intro d hd2
      rw [hcd] at hd2
      unfold pieData at hd2
      have hd3 := List.mem_of_mem_take hd2
      obtain ⟨p, hp, hpd⟩ := List.mem_map.mp hd3
      obtain ⟨c0, n0⟩ := p
      have hpc := mem_jsEntries.mp (mem_sortByLe.mp hp)
      obtain ⟨hn, hpos⟩ := mem_pieCounts hpc
      exact ⟨c0, n0, hpd.symm, hn, hpos⟩

set_option maxRecDepth 2000 in
/-- C7 witness: the 30-distinct-value table yields a pie payload of exactly
15 records. -/
theorem pie_materialization_top15_witness :
    (generateChart pdThirty ChartType.pie (some "c") none none 0).map
      (fun cfg => cfg.data.length) = some 15 := by
  have hsome : (generateChart pdThirty ChartType.pie (some "c") none none 0).isSome := by
    decide
  obtain ⟨cfg, hcfg⟩ := Option.isSome_iff_exists.mp hsome
  have hlen := (pie_materialization_top15 pdThirty "c" none none 0 (by decide)
    cfg hcfg).1
  have hdist : ((pdThirty.rows.filterMap (pieKeyQ "c")).dedup).length = 30 := by
    decide
  rw [hcfg]
  show some cfg.data.length = some 15
  rw [hlen, hdist]
  decide

theorem isEmpty_false_of_ne_nil {α : Type} {l : List α} (h : l ≠ []) :
    l.isEmpty = false := by
  cases l with
  | nil => exact absurd rfl h
  | cons a as => rfl

theorem classifySamples_bool_strings {dateOk : JsValue → Bool}
    {samples : List JsValue} (hne : samples ≠ [])
    (hall : ∀ v ∈ samples, isBoolLike v = true)
    (hstr : ∃ v ∈ samples, ∃ s, v = JsValue.strV s) :
    classifySamples dateOk samples = ColumnType.boolean := by
  unfold classifySamples
  have hempty := isEmpty_false_of_ne_nil hne
  obtain ⟨v0, hv0, s, rfl⟩ := hstr
  have hs2 : s = "true" ∨ s = "false" := by
    simpa [isBoolLike] using hall _ hv0
  have hnum : detectIsNumberLike (JsValue.strV s) = false := by
    rcases hs2 with rfl | rfl <;> decide
  have hallnum : samples.all detectIsNumberLike = false := by
    rw [Bool.eq_false_iff]
    intro hcontra
    have hval := List.all_eq_true.mp hcontra _ hv0
    rw [hnum] at hval
    cases hval
  have hb : samples.all isBoolLike = true := List.all_eq_true.mpr hall
  simp [hempty, hallnum, hb]

theorem classifySamples_bool_literals {dateOk : JsValue → Bool}
    {samples : List JsValue} (hne : samples ≠ [])
    (hall : ∀ v ∈ samples, ∃ b, v = JsValue.boolV b) :
    classifySamples dateOk samples = ColumnType.number := by
  unfold classifySamples
  have hempty := isEmpty_false_of_ne_nil hne
  have hallnum : samples.all detectIsNumberLike = true :=
    List.all_eq_true.mpr (fun v hv => by
      obtain ⟨b, rfl⟩ := hall v hv
      rfl)
  simp [hempty, hallnum]

theorem classifyCleaned_bools {dateOk : String → Bool}
    {samples : List JsValue} (hne : samples ≠ [])
    (hall : ∀ v ∈ samples, isBoolLike v = true) :
    classifyCleaned dateOk samples = ColumnType.boolean := by
  unfold classifyCleaned
  have hempty := isEmpty_false_of_ne_nil hne
  have hb : samples.all isBoolLike = true := List.all_eq_true.mpr hall
  simp [hempty, hb]

/-- C1 amended: in detectColumnTypes the precedence is number before
boolean, so a column whose samples are all JavaScript boolean literals is
classified number (Number(true) is 1); a column whose samples are boolean
literals or the exact strings true/false with at least one string sample
still classifies boolean there, because Number of those strings is NaN.
In the convertJsonToParsedData inference pass the boolean check runs
first, so every all-boolean-like column classifies boolean. -/
theorem columnTypes_boolean_rule_amended :
    (∀ (dateOk : JsValue → Bool) (rows : List Row) (cols : List String)
      (c : String), c ∈ cols → sampleVals rows c ≠ [] →
      (∀ v ∈ sampleVals rows c, isBoolLike v = true) →
      (∃ v ∈ sampleVals rows c, ∃ s, v = JsValue.strV s) →
      objLookup (detectColumnTypes dateOk rows cols) c = some ColumnType.boolean) ∧
    (∀ (dateOk : JsValue → Bool) (rows : List Row) (cols : List String)
      (c : String), c ∈ cols → sampleVals rows c ≠ [] →
      (∀ v ∈ sampleVals rows c, ∃ b, v = JsValue.boolV b) →
      objLookup (detectColumnTypes dateOk rows cols) c = some ColumnType.number) ∧
    (∀ (dateOk : String → Bool) (rows : List Row) (cols : List String)
      (c : String), c ∈ cols → sampleValsCleaned rows c ≠ [] →
      (∀ v ∈ sampleValsCleaned rows c, isBoolLike v = true) →
      objLookup (inferCleanedTypes dateOk rows cols) c = some ColumnType.boolean) := by
  refine ⟨?_, ?_, ?_⟩
  · intro dateOk rows cols c hc hne hall hstr
    unfold detectColumnTypes
    rw [objLookup_map_self hc]
    rw [classifySamples_bool_strings hne hall hstr]
  · intro dateOk rows cols c hc hne hall
    unfold detectColumnTypes
    rw [objLookup_map_self hc]
    rw [classifySamples_bool_literals hne hall]
  · intro dateOk rows cols c hc hne hall
    unfold inferCleanedTypes
    rw [objLookup_map_self hc]
    rw [classifyCleaned_bools hne hall]

/-- C1 witness: a column of the strings true/false classifies boolean in
detectColumnTypes, a column of boolean literals classifies number there,
and a column of boolean literals classifies boolean in the
convertJsonToParsedData pass. -/
theorem columnTypes_boolean_rule_amended_witness :
    objLookup (detectColumnTypes (fun _ => false)
      [[("b", JsValue.strV "true")], [("b", JsValue.strV "false")]] ["b"]) "b" =
      some ColumnType.boolean ∧
    objLookup (detectColumnTypes (fun _ => false)
      [[("b", JsValue.boolV true)]] ["b"]) "b" = some ColumnType.number ∧
    objLookup (inferCleanedTypes (fun _ => false)
      [[("b", JsValue.boolV true)], [("b", JsValue.strV "false")]] ["b"]) "b" =
      some ColumnType.boolean := by
  refine ⟨?_, ?_, ?_⟩
  · exact columnTypes_boolean_rule_amended.1 (fun _ => false)
      [[("b", JsValue.strV "true")], [("b", JsValue.strV "false")]] ["b"] "b"
      (by decide) (by decide) (by decide)
      ⟨JsValue.strV "true", by decide, "true", rfl⟩
  · exact columnTypes_boolean_rule_amended.2.1 (fun _ => false)
      [[("b", JsValue.boolV true)]] ["b"] "b"
      (by decide) (by decide) (by decide)
  · exact columnTypes_boolean_rule_amended.2.2 (fun _ => false)
      [[("b", JsValue.boolV true)], [("b", JsValue.strV "false")]] ["b"] "b"
      (by decide) (by decide) (by decide)

theorem jointPairs_length_symm (rows : List Row) (a b : String) :
    (jointPairs rows a b).length = (jointPairs rows b a).length := by
  induction rows with
  | nil => rfl
  | cons r rs ih =>
    unfold jointPairs at ih ⊢
    cases h1 : jsNumberU (rowLookup r a) <;> cases h2 : jsNumberU (rowLookup r b) <;>
      simp [List.filterMap_cons, h1, h2, ih]

theorem calculateCorrelation_denom_zero {sqrtQ : ℚ → ℚ} (h0 : sqrtQ 0 = 0)
    (x y : List ℚ) (hd : corrDenomSq x y = 0) :
    calculateCorrelation sqrtQ x y = 0 := by
  unfold calculateCorrelation
  split
  · rfl
  · rw [hd, h0]
    simp

/-- The loop invariant of the correlation construction: the map is
symmetric, and every stored entry joins two distinct numeric columns with
at least two jointly numeric rows. -/
def CorrOk (rows : List Row) (nums : List String) (m : CorrMap) : Prop :=
  (∀ a b v, m a b = some v → m b a = some v) ∧
  (∀ a b v, m a b = some v →
    a ≠ b ∧ a ∈ nums ∧ b ∈ nums ∧ 2 ≤ (jointPairs rows a b).length)

theorem corrOk_empty (rows : List Row) (nums : List String) :
    CorrOk rows nums corrEmpty := by
  constructor
  · intro a b v h
    cases h
  · intro a b v h
    cases h

theorem corrMaybeAdd_ok {rows : List Row} {nums : List String} {sqrtQ : ℚ → ℚ}
    {m : CorrMap} {c1 c2 : String} (h1 : c1 ∈ nums) (h2 : c2 ∈ nums)
    (hne : c1 ≠ c2) (hok : CorrOk rows nums m) :
    CorrOk rows nums (corrMaybeAdd rows sqrtQ m c1 c2) := by
  unfold corrMaybeAdd
  split
  case isFalse => exact hok
  rename_i hlen
  have hm2 : ∀ x y, corrSet (corrSet m c1 c2 (corrValueOf rows sqrtQ c1 c2)) c2 c1
      (corrValueOf rows sqrtQ c1 c2) x y =
      if (x = c2 ∧ y = c1) ∨ (x = c1 ∧ y = c2) then some (corrValueOf rows sqrtQ c1 c2)
      else m x y := by
    intro x y
    unfold corrSet
    by_cases hA : x = c2 ∧ y = c1
    · simp [hA]
    · by_cases hB : x = c1 ∧ y = c2
      · have hAB : ¬ (x = c2 ∧ y = c1) := hA
        simp [hB, hAB]
      · simp [hA, hB]
  constructor
  · intro x y w hw
    rw [hm2] at hw
    rw [hm2]
    by_cases hc : (x = c2 ∧ y = c1) ∨ (x = c1 ∧ y = c2)
    · rw [if_pos hc] at hw
      have hc2 : (y = c2 ∧ x = c1) ∨ (y = c1 ∧ x = c2) := by tauto
      rw [if_pos hc2]
      exact hw
    · rw [if_neg hc] at hw
      have hc2 : ¬ ((y = c2 ∧ x = c1) ∨ (y = c1 ∧ x = c2)) := by tauto
      rw [if_neg hc2]
      exact hok.1 x y w hw
  · intro x y w hw
    rw [hm2] at hw
    by_cases hc : (x = c2 ∧ y = c1) ∨ (x = c1 ∧ y = c2)
    · rcases hc with ⟨rfl, rfl⟩ | ⟨rfl, rfl⟩
      · refine ⟨fun he => hne he.symm, h2, h1, ?_⟩
        rw [jointPairs_length_symm rows x y]
        omega
      · exact ⟨hne, h1, h2, by omega⟩
    · rw [if_neg hc] at hw
      exact hok.2 x y w hw

theorem corrInner_ok {rows : List Row} {nums : List String} {sqrtQ : ℚ → ℚ}
    {c1 : String} :
    ∀ (rest : List String) (m : CorrMap), c1 ∈ nums → (∀ c ∈ rest, c ∈ nums) →
    c1 ∉ rest → CorrOk rows nums m →
    CorrOk rows nums (corrInner rows sqrtQ c1 rest m) := by
  intro rest
  induction rest with
  | nil => intro m _ _ _ hok; exact hok
  | cons c2 rest2 ih =>
    intro m hc1 hsub hnotin hok
    unfold corrInner
    refine ih _ hc1 (fun c hc => hsub c (List.mem_cons_of_mem _ hc))
      (fun hmem => hnotin (List.mem_cons_of_mem _ hmem)) ?_
    exact corrMaybeAdd_ok hc1 (hsub c2 (List.mem_cons_self _ _))
      (fun he => hnotin (he ▸ List.mem_cons_self _ _)) hok

theorem corrOuter_ok {rows : List Row} {nums : List String} {sqrtQ : ℚ → ℚ} :
    ∀ (l : List String) (m : CorrMap), (∀ c ∈ l, c ∈ nums) → l.Nodup →
    CorrOk rows nums m → CorrOk rows nums (corrOuter rows sqrtQ l m) := by
  intro l
  induction l with
  | nil => intro m _ _ hok; exact hok
  | cons c rest ih =>
    intro m hsub hnd hok
    unfold corrOuter
    refine ih _ (fun c2 hc2 => hsub c2 (List.mem_cons_of_mem _ hc2))
      (List.nodup_cons.mp hnd).2 ?_
    exact corrInner_ok rest m (hsub c (List.mem_cons_self _ _))
      (fun c2 hc2 => hsub c2 (List.mem_cons_of_mem _ hc2))
      (List.nodup_cons.mp hnd).1 hok

/-- C10: the correlations component of extractMetrics is symmetric, every
stored entry pairs two distinct numeric columns sharing at least two
jointly numeric rows, and the Pearson coefficient is 0 whenever its
denominator is 0 (for any square root that vanishes exactly at 0, as IEEE
sqrt does). -/
theorem correlations_symmetry (pd : ParsedData) (sqrtQ : ℚ → ℚ)
    (hnd : pd.columns.Nodup) (h0 : sqrtQ 0 = 0) :
    (∀ a b v, extractMetricsCorrelations pd sqrtQ a b = some v →
      extractMetricsCorrelations pd sqrtQ b a = some v) ∧
    (∀ a b v, extractMetricsCorrelations pd sqrtQ a b = some v →
      a ≠ b ∧ a ∈ numericColsOf pd ∧ b ∈ numericColsOf pd ∧
      2 ≤ (jointPairs pd.rows a b).length) ∧
    (∀ x y : List ℚ, corrDenomSq x y = 0 →
      calculateCorrelation sqrtQ x y = 0) := by
  have hok : CorrOk pd.rows (numericColsOf pd) (extractMetricsCorrelations pd sqrtQ) := by
    unfold extractMetricsCorrelations
    split
    · exact corrOuter_ok (numericColsOf pd) corrEmpty (fun c hc => hc)
        (hnd.filter _) (corrOk_empty _ _)
    · exact corrOk_empty _ _
  exact ⟨hok.1, hok.2, fun x y hd => calculateCorrelation_denom_zero h0 x y hd⟩

/-- C10 witness: on the two-column table the coefficient 0.5 (with the
identity in place of sqrt) is stored under both orders, the pair is two
distinct numeric columns with two jointly numeric rows, and a constant
column makes the denominator 0 and the coefficient 0. -/
theorem correlations_symmetry_witness :
    extractMetricsCorrelations pdCorr (fun q => q) "a" "b" = some (1/2) ∧
    extractMetricsCorrelations pdCorr (fun q => q) "b" "a" = some (1/2) ∧
    ("a" ≠ "b" ∧ 2 ≤ (jointPairs pdCorr.rows "a" "b").length) ∧
    calculateCorrelation (fun q => q) [1, 1] [2, 3] = 0 := by
  have hthm := correlations_symmetry pdCorr (fun q => q) (by decide) rfl
  have hab : extractMetricsCorrelations pdCorr (fun q => q) "a" "b" = some (1/2) := by
    decide
  refine ⟨hab, hthm.1 "a" "b" _ hab, ?_, hthm.2.2 [1, 1] [2, 3] (by decide)⟩
  obtain ⟨hne, _, _, hlen⟩ := hthm.2.1 "a" "b" _ hab
  exact ⟨hne, hlen⟩

end NL2VIS
